import Mathlib

/-!
Verification of the rendering-context core in `src/graphics.rs` of the
miniquad repository: the pipeline layout compiler (`Pipeline::with_params`),
the GL state cache (`GlCache`, `Context::apply_bindings`,
`Context::apply_pipeline`), buffer updates (`Buffer::update`), render-pass
construction (`RenderPass::new`), uniform application
(`Context::apply_uniforms`) and pass clearing (`PassAction::clear_color`,
`Context::clear`, `Context::begin_pass`).

Side-effecting driver calls are embedded as values of an inductive `GLCall`;
each stateful operation is a pure function from the mirrored cache state to
the new state together with the list of driver calls it issues, in order.
Machine integers are embedded as `Int` with explicit wrap-around
(`i32wrap`, `i64wrap`, `u32cast`) at the operations where the Rust code
performs 32/64-bit arithmetic or casts.
-/

namespace Miniquad

/-- Modelled from the external GL API surface (`crate::sapp`), which is not
part of this repository: the standard OpenGL numeric values of the enums and
bit masks the code passes to the driver. Only their distinctness matters to
the theorems below. -/
def GL_ARRAY_BUFFER : Nat := 0x8892

def GL_ELEMENT_ARRAY_BUFFER : Nat := 0x8893

def GL_FLOAT : Nat := 0x1406

def GL_UNSIGNED_BYTE : Nat := 0x1401

def GL_BLEND : Nat := 0x0BE2

def GL_DEPTH_TEST : Nat := 0x0B71

def GL_SCISSOR_TEST : Nat := 0x0C11

def GL_TEXTURE0 : Nat := 0x84C0

def GL_COLOR_BUFFER_BIT : Nat := 0x00004000

def GL_DEPTH_BUFFER_BIT : Nat := 0x00000100

def GL_STENCIL_BUFFER_BIT : Nat := 0x00000400

def GL_COLOR_ATTACHMENT0 : Nat := 0x8CE0

def GL_DEPTH_ATTACHMENT : Nat := 0x8D00

def GL_NEVER : Nat := 0x0200

def GL_LESS : Nat := 0x0201

def GL_EQUAL : Nat := 0x0202

def GL_LEQUAL : Nat := 0x0203

def GL_GREATER : Nat := 0x0204

def GL_NOTEQUAL : Nat := 0x0205

def GL_GEQUAL : Nat := 0x0206

def GL_ALWAYS : Nat := 0x0207

def GL_FUNC_ADD : Nat := 0x8006

def GL_FUNC_SUBTRACT : Nat := 0x800A

def GL_FUNC_REVERSE_SUBTRACT : Nat := 0x800B

def GL_ZERO : Nat := 0

def GL_ONE : Nat := 1

def GL_SRC_COLOR : Nat := 0x0300

def GL_ONE_MINUS_SRC_COLOR : Nat := 0x0301

def GL_SRC_ALPHA : Nat := 0x0302

def GL_ONE_MINUS_SRC_ALPHA : Nat := 0x0303

def GL_DST_ALPHA : Nat := 0x0304

def GL_ONE_MINUS_DST_ALPHA : Nat := 0x0305

def GL_DST_COLOR : Nat := 0x0306

def GL_ONE_MINUS_DST_COLOR : Nat := 0x0307

/-- Two's-complement wrap of an integer into the `i32` range, the semantics
of Rust `i32` arithmetic when it overflows. -/
def i32wrap (x : Int) : Int := (x + 2 ^ 31) % 2 ^ 32 - 2 ^ 31

/-- Two's-complement wrap of an integer into the `i64` range, the semantics
of Rust `i64` arithmetic when it overflows. -/
def i64wrap (x : Int) : Int := (x + 2 ^ 63) % 2 ^ 64 - 2 ^ 63

/-- Rust `as u32` cast (from a signed integer): reduction mod `2^32`. -/
def u32cast (x : Int) : Nat := (x % 2 ^ 32).toNat

/-- `UniformType` of `graphics.rs`. -/
inductive UniformType
  | Float1
  | Float2
  | Float3
  | Float4
  | Mat4
  deriving DecidableEq

/-- `UniformType::size(count)` of `graphics.rs`: the byte size of a uniform
of this type. -/
def UniformType.size (u : UniformType) (count : Nat) : Nat :=
  match u with
  | .Float1 => 4 * count
  | .Float2 => 8 * count
  | .Float3 => 12 * count
  | .Float4 => 16 * count
  | .Mat4 => 64 * count

/-- `VertexFormat` of `graphics.rs`. -/
inductive VertexFormat
  | Float1
  | Float2
  | Float3
  | Float4
  | Byte1
  | Byte2
  | Byte3
  | Byte4
  | Mat4
  deriving DecidableEq

/-- `VertexFormat::size` of `graphics.rs`: the component count. -/
def VertexFormat.size : VertexFormat → Int
  | .Float1 => 1
  | .Float2 => 2
  | .Float3 => 3
  | .Float4 => 4
  | .Byte1 => 1
  | .Byte2 => 2
  | .Byte3 => 3
  | .Byte4 => 4
  | .Mat4 => 16

/-- `VertexFormat::byte_len` of `graphics.rs`. -/
def VertexFormat.byte_len : VertexFormat → Int
  | .Float1 => 1 * 4
  | .Float2 => 2 * 4
  | .Float3 => 3 * 4
  | .Float4 => 4 * 4
  | .Byte1 => 1
  | .Byte2 => 2
  | .Byte3 => 3
  | .Byte4 => 4
  | .Mat4 => 16 * 4

/-- `VertexFormat::type_` of `graphics.rs`: the GL scalar type enum. -/
def VertexFormat.type_ : VertexFormat → Nat
  | .Float1 => GL_FLOAT
  | .Float2 => GL_FLOAT
  | .Float3 => GL_FLOAT
  | .Float4 => GL_FLOAT
  | .Byte1 => GL_UNSIGNED_BYTE
  | .Byte2 => GL_UNSIGNED_BYTE
  | .Byte3 => GL_UNSIGNED_BYTE
  | .Byte4 => GL_UNSIGNED_BYTE
  | .Mat4 => GL_FLOAT

/-- `VertexStep` of `graphics.rs`. -/
inductive VertexStep
  | PerVertex
  | PerInstance
  deriving DecidableEq

/-- `BufferLayout` of `graphics.rs` (`stride` and `step_rate` are `i32`). -/
structure BufferLayout where
  stride : Int
  step_func : VertexStep
  step_rate : Int
  deriving DecidableEq

/-- `VertexAttribute` of `graphics.rs`. -/
structure VertexAttribute where
  name : String
  format : VertexFormat
  buffer_index : Nat
  deriving DecidableEq

/-- `VertexAttributeInternal` of `graphics.rs`: `attr_loc` is a `GLuint`,
`size`/`stride`/`divisor` are `i32`, `offset` is `i64`. -/
structure VertexAttributeInternal where
  attr_loc : Nat
  size : Int
  type_ : Nat
  offset : Int
  stride : Int
  buffer_index : Nat
  divisor : Int
  deriving DecidableEq

/-- The `#[derive(Default)]` value of `VertexAttributeInternal`. -/
def VertexAttributeInternal.default : VertexAttributeInternal :=
  { attr_loc := 0, size := 0, type_ := 0, offset := 0, stride := 0
    buffer_index := 0, divisor := 0 }

/-- The local `BufferCacheData` struct of `Pipeline::with_params`
(`stride : i32`, `offset : i64`, both defaulting to 0). -/
structure BufferCacheData where
  stride : Int
  offset : Int
  deriving DecidableEq

/-- The `#[derive(Default)]` value of `BufferCacheData`. -/
def BufferCacheData.default : BufferCacheData := { stride := 0, offset := 0 }

/-- The distinct `panic!`/`assert!` abort sites of `Pipeline::with_params`,
as an error type for the embedding. -/
inductive PipelineError
  | missingBufferLayout
  | unknownAttribute
  | attributeLocationOverflow
  | incompleteAttributeLayout
  deriving DecidableEq

/-- `Comparison` of `graphics.rs`. -/
inductive Comparison
  | Never
  | Less
  | LessOrEqual
  | Greater
  | GreaterOrEqual
  | Equal
  | NotEqual
  | Always
  deriving DecidableEq

/-- `impl From<Comparison> for GLenum` of `graphics.rs`. -/
def Comparison.toGLenum : Comparison → Nat
  | .Never => GL_NEVER
  | .Less => GL_LESS
  | .LessOrEqual => GL_LEQUAL
  | .Greater => GL_GREATER
  | .GreaterOrEqual => GL_GEQUAL
  | .Equal => GL_EQUAL
  | .NotEqual => GL_NOTEQUAL
  | .Always => GL_ALWAYS

/-- `Equation` of `graphics.rs`. -/
inductive Equation
  | Add
  | Subtract
  | ReverseSubtract
  deriving DecidableEq

/-- `impl From<Equation> for GLenum` of `graphics.rs`. -/
def Equation.toGLenum : Equation → Nat
  | .Add => GL_FUNC_ADD
  | .Subtract => GL_FUNC_SUBTRACT
  | .ReverseSubtract => GL_FUNC_REVERSE_SUBTRACT

/-- `BlendValue` of `graphics.rs`. -/
inductive BlendValue
  | SourceColor
  | SourceAlpha
  | DestinationColor
  | DestinationAlpha
  deriving DecidableEq

/-- `BlendFactor` of `graphics.rs`. -/
inductive BlendFactor
  | Zero
  | One
  | Value (v : BlendValue)
  | OneMinusValue (v : BlendValue)
  deriving DecidableEq

/-- `impl From<BlendFactor> for GLenum` of `graphics.rs`. -/
def BlendFactor.toGLenum : BlendFactor → Nat
  | .Zero => GL_ZERO
  | .One => GL_ONE
  | .Value .SourceColor => GL_SRC_COLOR
  | .Value .SourceAlpha => GL_SRC_ALPHA
  | .Value .DestinationColor => GL_DST_COLOR
  | .Value .DestinationAlpha => GL_DST_ALPHA
  | .OneMinusValue .SourceColor => GL_ONE_MINUS_SRC_COLOR
  | .OneMinusValue .SourceAlpha => GL_ONE_MINUS_SRC_ALPHA
  | .OneMinusValue .DestinationColor => GL_ONE_MINUS_DST_COLOR
  | .OneMinusValue .DestinationAlpha => GL_ONE_MINUS_DST_ALPHA

/-- `BlendState` of `graphics.rs`. -/
def BlendState := Option (Equation × BlendFactor × BlendFactor)

instance : DecidableEq BlendState :=
  inferInstanceAs (DecidableEq (Option (Equation × BlendFactor × BlendFactor)))

/-- `PipelineParams` of `graphics.rs`. `f32` fields of `depth_write_offset`
carry no arithmetic in the modelled code and are embedded as rationals. -/
structure PipelineParams where
  cull_face_nothing : Bool
  front_face_order_ccw : Bool
  depth_test : Comparison
  depth_write : Bool
  depth_write_offset : Option (Rat × Rat)
  color_blend : BlendState
  color_write : Bool × Bool × Bool × Bool

/-- `CachedAttribute` of `graphics.rs` (`attribute` is a Lean keyword, so
the field is named `attr` here). -/
structure CachedAttribute where
  attr : VertexAttributeInternal
  gl_vbuf : Nat
  deriving DecidableEq

/-- The driver calls issued by the modelled code, in issue order. Pixel
`f32` arguments carry no arithmetic and are embedded as rationals. -/
inductive GLCall
  | glBindBuffer (target : Nat) (buffer : Nat)
  | glVertexAttribPointer (index : Nat) (size : Int) (type_ : Nat)
      (stride : Int) (offset : Int)
  | glVertexAttribDivisor (index : Nat) (divisor : Nat)
  | glEnableVertexAttribArray (index : Nat)
  | glDisableVertexAttribArray (index : Nat)
  | glActiveTexture (unit : Nat)
  | glBindTexture (texture : Nat)
  | glUniform1i (loc : Int) (v : Int)
  | glUseProgram (program : Nat)
  | glEnable (cap : Nat)
  | glDisable (cap : Nat)
  | glDepthFunc (f : Nat)
  | glBlendFunc (src : Nat) (dst : Nat)
  | glBlendEquationSeparate (modeRGB : Nat) (modeAlpha : Nat)
  | glBindFramebuffer (framebuffer : Nat)
  | glFramebufferTexture2D (attachment : Nat) (texture : Nat)
  | glBufferSubData (target : Nat)
  | glClearColor (r g b a : Rat)
  | glClearDepthf (d : Rat)
  | glClearStencil (s : Int)
  | glClear (bits : Nat)
  | glViewport (x y w h : Int)
  | glScissor (x y w h : Int)
  deriving DecidableEq

/-- `MAX_VERTEX_ATTRIBUTES` of `graphics.rs`. -/
def MAX_VERTEX_ATTRIBUTES : Nat := 16

/-- `GlCache` of `graphics.rs`. The `attributes` array
(`[Option<CachedAttribute>; MAX_VERTEX_ATTRIBUTES]`) is a list of length 16;
`cur_pipeline` stores the pipeline registry index. -/
structure GlCache where
  stored_index_buffer : Nat
  stored_vertex_buffer : Nat
  index_buffer : Nat
  vertex_buffer : Nat
  cur_pipeline : Option Nat
  blend : BlendState
  attributes : List (Option CachedAttribute)

/-- `GlCache::bind_buffer` of `graphics.rs`: suppresses the driver call when
the tracked binding for the target already matches. -/
def GlCache.bind_buffer (c : GlCache) (target : Nat) (buffer : Nat) :
    GlCache × List GLCall :=
  if target = GL_ARRAY_BUFFER then
    if c.vertex_buffer ≠ buffer then
      ({ c with vertex_buffer := buffer }, [.glBindBuffer target buffer])
    else (c, [])
  else
    if c.index_buffer ≠ buffer then
      ({ c with index_buffer := buffer }, [.glBindBuffer target buffer])
    else (c, [])

/-- `GlCache::store_buffer_binding` of `graphics.rs`. -/
def GlCache.store_buffer_binding (c : GlCache) (target : Nat) : GlCache :=
  if target = GL_ARRAY_BUFFER then
    { c with stored_vertex_buffer := c.vertex_buffer }
  else
    { c with stored_index_buffer := c.index_buffer }

/-- `GlCache::restore_buffer_binding` of `graphics.rs`. -/
def GlCache.restore_buffer_binding (c : GlCache) (target : Nat) :
    GlCache × List GLCall :=
  if target = GL_ARRAY_BUFFER then
    c.bind_buffer target c.stored_vertex_buffer
  else
    c.bind_buffer target c.stored_index_buffer

/-- `BufferType` of `graphics.rs`. -/
inductive BufferType
  | VertexBuffer
  | IndexBuffer
  deriving DecidableEq

/-- `gl_buffer_target` of `graphics.rs`. -/
def gl_buffer_target : BufferType → Nat
  | .VertexBuffer => GL_ARRAY_BUFFER
  | .IndexBuffer => GL_ELEMENT_ARRAY_BUFFER

/-- `Buffer` of `graphics.rs`. -/
structure Buffer where
  gl_buf : Nat
  buffer_type : BufferType
  size : Nat
  deriving DecidableEq

/-- `Texture` of `graphics.rs` (the raw GL handle and its dimensions). -/
structure Texture where
  texture : Nat
  width : Nat
  height : Nat
  deriving DecidableEq

/-- `Bindings` of `graphics.rs`. -/
structure Bindings where
  vertex_buffers : List Buffer
  index_buffer : Buffer
  images : List Texture

/-- `Buffer::update` of `graphics.rs`, lines 1239-1251: asserts the payload
fits the capacity, binds the updated buffer through the cache, uploads, then
calls `restore_buffer_binding` (note: without a preceding
`store_buffer_binding`). `dataSize` is `mem::size_of_val(data)`; the payload
bytes themselves are irrelevant to the state and call sequence. `none`
models the `assert!` panic. -/
def Buffer.update (buf : Buffer) (cache : GlCache) (dataSize : Nat) :
    Option (GlCache × List GLCall) :=
  if dataSize ≤ buf.size then
    let gl_target := gl_buffer_target buf.buffer_type
    let r1 := cache.bind_buffer gl_target buf.gl_buf
    let r2 := r1.1.restore_buffer_binding gl_target
    some (r2.1, r1.2 ++ [.glBufferSubData gl_target] ++ r2.2)
  else none

/-- `Buffer::immutable` of `graphics.rs`, cache/call portion: stores the
current binding, binds the fresh buffer `gl_buf`, uploads, restores. -/
def Buffer.immutable (buffer_type : BufferType) (gl_buf : Nat)
    (cache : GlCache) : GlCache × List GLCall :=
  let gl_target := gl_buffer_target buffer_type
  let c0 := cache.store_buffer_binding gl_target
  let r1 := c0.bind_buffer gl_target gl_buf
  let r2 := r1.1.restore_buffer_binding gl_target
  (r2.1, r1.2 ++ [.glBufferSubData gl_target] ++ r2.2)

/-- `PassAction` of `graphics.rs`. Clear components are `f32`/`i32` values
carrying no arithmetic; the floats are embedded as rationals. -/
inductive PassAction
  | Nothing
  | Clear (color : Option (Rat × Rat × Rat × Rat)) (depth : Option Rat)
      (stencil : Option Int)
  deriving DecidableEq

/-- `PassAction::clear_color` of `graphics.rs`. -/
def PassAction.clear_color (r g b a : Rat) : PassAction :=
  .Clear (some (r, g, b, a)) (some 1) none

/-- `Context::clear` of `graphics.rs`: accumulates the clear bit mask from
the present components and issues `glClear` when it is non-zero. -/
def Context.clear (color : Option (Rat × Rat × Rat × Rat))
    (depth : Option Rat) (stencil : Option Int) : List GLCall :=
  let s1 : Nat × List GLCall :=
    match color with
    | some (r, g, b, a) => (GL_COLOR_BUFFER_BIT, [.glClearColor r g b a])
    | none => (0, [])
  let s2 : Nat × List GLCall :=
    match depth with
    | some v => (s1.1 ||| GL_DEPTH_BUFFER_BIT, s1.2 ++ [.glClearDepthf v])
    | none => s1
  let s3 : Nat × List GLCall :=
    match stencil with
    | some v => (s2.1 ||| GL_STENCIL_BUFFER_BIT, s2.2 ++ [.glClearStencil v])
    | none => s2
  if s3.1 ≠ 0 then s3.2 ++ [.glClear s3.1] else s3.2

/-- `Context::begin_pass` of `graphics.rs`, after the target framebuffer and
extent `(w, h)` are selected: bind, set viewport and scissor, run the
action. -/
def Context.begin_pass (framebuffer : Nat) (w h : Int) (action : PassAction) :
    List GLCall :=
  [.glBindFramebuffer framebuffer, .glViewport 0 0 w h, .glScissor 0 0 w h] ++
    match action with
    | .Nothing => []
    | .Clear color depth stencil => Context.clear color depth stencil

/-- `RenderPass::new` of `graphics.rs`: the driver calls issued while
constructing a pass around fresh framebuffer `gl_fb`, ending with a bind of
the context's `default_framebuffer`. -/
def RenderPass.new_calls (default_framebuffer : Nat) (color_texture : Nat)
    (depth_texture : Option Nat) (gl_fb : Nat) : List GLCall :=
  [.glBindTexture color_texture,
   .glBindFramebuffer gl_fb,
   .glFramebufferTexture2D GL_COLOR_ATTACHMENT0 color_texture] ++
    (match depth_texture with
     | some d => [.glFramebufferTexture2D GL_DEPTH_ATTACHMENT d]
     | none => []) ++
    [.glBindFramebuffer default_framebuffer]

/-- The framebuffer binding in effect after a call sequence, starting from
`prior`: the last `glBindFramebuffer` argument wins. -/
def fbBindingAfter (prior : Nat) (calls : List GLCall) : Nat :=
  calls.foldl
    (fun fb c => match c with | .glBindFramebuffer f => f | _ => fb) prior

/-- `Context::apply_uniforms` of `graphics.rs`, offset/assert portion: walks
the declared uniform list accumulating the read offset in `f32` units
(`offset += uniform_type.size(1) / 4`) and asserts
`offset < size_of::<U>() - 4` before each read. Returns the per-uniform
offsets, or `none` for the `assert!` panic. `sizeU - 4` is truncated `Nat`
subtraction, which agrees with Rust for `sizeU ≥ 4` (and with debug-build
Rust, where the underflow itself panics, below 4). -/
def apply_uniforms_check : List UniformType → Nat → Nat → Option (List Nat)
  | [], _, _ => some []
  | u :: rest, offset, sizeU =>
    if offset < sizeU - 4 then
      match apply_uniforms_check rest (offset + u.size 1 / 4) sizeU with
      | some os => some (offset :: os)
      | none => none
    else none

/-- The declared-order running offsets, in `f32` units, of a uniform list
starting at `off`: the offsets `apply_uniforms_check` reads at. -/
def floatOffsets : List UniformType → Nat → List Nat
  | [], _ => []
  | u :: rest, off => off :: floatOffsets rest (off + u.size 1 / 4)

/-- Total declared byte size of a uniform list (the size the caller's data
block must have to contain all declared uniforms). -/
def uniformsByteSize (us : List UniformType) : Nat :=
  (us.map (fun u => u.size 1)).sum

/-- The first pass of `Pipeline::with_params` (lines 1015-1034): derive each
buffer slot's stride. An auto (zero) declared stride accumulates the byte
length of every attribute of the slot, in declaration order (`i32`
addition); a non-zero declared stride is copied as is. `none` models the
`panic!` on an out-of-range `buffer_index`. -/
def strideSweep (buffer_layout : List BufferLayout) :
    List VertexAttribute → List BufferCacheData →
      Option (List BufferCacheData)
  | [], buffer_cache => some buffer_cache
  | a :: rest, buffer_cache =>
    match buffer_layout[a.buffer_index]?, buffer_cache[a.buffer_index]? with
    | some layout, some cache =>
      let cache' :=
        if layout.stride = 0 then
          { cache with stride := i32wrap (cache.stride + a.format.byte_len) }
        else
          { cache with stride := layout.stride }
      strideSweep buffer_layout rest (buffer_cache.set a.buffer_index cache')
    | _, _ => none

/-- The single store of a resolved record into the flat `vertex_layout`
array in `Pipeline::with_params`: the `assert!(attr_loc < len)` is the
`AttributeLocationOverflow` abort, otherwise `vertex_layout[attr_loc] =
attr`. -/
def writeRecord (arr : List VertexAttributeInternal) (loc : Nat)
    (attr : VertexAttributeInternal) :
    Except PipelineError (List VertexAttributeInternal) :=
  if loc < arr.length then .ok (arr.set loc attr) else
    .error .attributeLocationOverflow

/-- The inner `for i in 0..attributes_count` loop of
`Pipeline::with_params` (lines 1078-1103): writes `count` consecutive
records at locations `base_loc + i` (`GLuint` addition), each carrying the
slot's stride and the running offset, which advances by
`4 * format.size()` bytes per record (`i64` addition). -/
def writeSubAttrs (stride : Int) (buffer_index : Nat) (divisor : Int)
    (format : VertexFormat) (base_loc : Nat) :
    Nat → Nat → Int → List VertexAttributeInternal →
      Except PipelineError (Int × List VertexAttributeInternal)
  | 0, _, offset, arr => .ok (offset, arr)
  | count + 1, i, offset, arr =>
    let attr_loc := (base_loc + i) % 2 ^ 32
    let attr : VertexAttributeInternal :=
      { attr_loc := attr_loc, size := format.size, type_ := format.type_
        offset := offset, stride := stride, buffer_index := buffer_index
        divisor := divisor }
    match writeRecord arr attr_loc attr with
    | .ok arr' =>
      writeSubAttrs stride buffer_index divisor format base_loc count (i + 1)
        (i64wrap (offset + 4 * format.size)) arr'
    | .error e => .error e

/-- One iteration of the second pass of `Pipeline::with_params`
(lines 1049-1104): resolve the attribute and write its (possibly expanded)
records. `attrLocOf` is the linked program's `glGetAttribLocation`;
`-1` means the name is not exposed (`panic!` at line 1063). A `Mat4`
attribute is rewritten to four `Float4` sub-attributes. -/
def processAttr (buffer_layout : List BufferLayout)
    (attrLocOf : String → Int) (a : VertexAttribute)
    (buffer_cache : List BufferCacheData)
    (arr : List VertexAttributeInternal) :
    Except PipelineError (List BufferCacheData × List VertexAttributeInternal) :=
  match buffer_cache[a.buffer_index]?, buffer_layout[a.buffer_index]? with
  | some buffer_data, some layout =>
    let loc := attrLocOf a.name
    if loc = -1 then .error .unknownAttribute
    else
      let divisor : Int :=
        if layout.step_func = VertexStep.PerVertex then 0 else layout.step_rate
      let fc : VertexFormat × Nat :=
        if a.format = VertexFormat.Mat4 then (VertexFormat.Float4, 4)
        else (a.format, 1)
      match writeSubAttrs buffer_data.stride a.buffer_index divisor fc.1
          (u32cast loc) fc.2 0 buffer_data.offset arr with
      | .ok (offset', arr') =>
        .ok (buffer_cache.set a.buffer_index
              { buffer_data with offset := offset' }, arr')
      | .error e => .error e
  | _, _ => .error .missingBufferLayout

/-- The second pass of `Pipeline::with_params`: fold `processAttr` over the
declared attributes in order. -/
def buildLayout (buffer_layout : List BufferLayout)
    (attrLocOf : String → Int) :
    List VertexAttribute → List BufferCacheData →
      List VertexAttributeInternal →
      Except PipelineError (List BufferCacheData × List VertexAttributeInternal)
  | [], buffer_cache, arr => .ok (buffer_cache, arr)
  | a :: rest, buffer_cache, arr =>
    match processAttr buffer_layout attrLocOf a buffer_cache arr with
    | .ok (buffer_cache', arr') =>
      buildLayout buffer_layout attrLocOf rest buffer_cache' arr'
    | .error e => .error e

/-- `attributes_len` of `Pipeline::with_params` (lines 1038-1044): the
number of expanded (sub-)attribute records, 4 per `Mat4` and 1 otherwise. -/
def attributesLen (attributes : List VertexAttribute) : Nat :=
  (attributes.map
    (fun a => if a.format = VertexFormat.Mat4 then 4 else 1)).sum

/-- `Pipeline::with_params` of `graphics.rs` (lines 1002-1118), layout
computation: stride sweep, record construction into a
`vec![Default; attributes_len]` array, and the final
`assert!(no record has size 0)` (`IncompleteAttributeLayout`). The
`strideSweep` `panic!` sites coincide with `missingBufferLayout`. -/
def Pipeline.with_params (buffer_layout : List BufferLayout)
    (attributes : List VertexAttribute) (attrLocOf : String → Int) :
    Except PipelineError (List VertexAttributeInternal) :=
  match strideSweep buffer_layout attributes
      (List.replicate buffer_layout.length BufferCacheData.default) with
  | none => .error .missingBufferLayout
  | some buffer_cache =>
    match buildLayout buffer_layout attrLocOf attributes buffer_cache
        (List.replicate (attributesLen attributes)
          VertexAttributeInternal.default) with
    | .error e => .error e
    | .ok (_, vertex_layout) =>
      if vertex_layout.any (fun attr => attr.size = 0) then
        .error .incompleteAttributeLayout
      else .ok vertex_layout

/-- Sum of the byte lengths of the attributes declared for buffer slot `b`,
in declaration order (mathematical integer, no wrap). -/
def slotByteSum (attributes : List VertexAttribute) (b : Nat) : Int :=
  ((attributes.filter (fun a => a.buffer_index = b)).map
    (fun a => a.format.byte_len)).sum

/-- The `cached_attr.map_or(true, ...)` rebind test of
`Context::apply_bindings` (lines 600-602). -/
def needsRebind (cached : Option CachedAttribute)
    (attr : VertexAttributeInternal) (vbuf : Nat) : Bool :=
  match cached with
  | none => true
  | some ca => decide (attr ≠ ca.attr ∨ ca.gl_vbuf ≠ vbuf)

/-- One iteration of the `for attr_index in 0..MAX_VERTEX_ATTRIBUTES` loop
of `Context::apply_bindings` (lines 592-632). `none` models the `panic!` on
an out-of-range `buffer_index` into `bindings.vertex_buffers`. The
accumulated call list grows by the calls this slot issues. -/
def applyBindingsSlot (bindings : Bindings)
    (pipLayout : List VertexAttributeInternal)
    (st : GlCache × List GLCall) (attr_index : Nat) :
    Option (GlCache × List GLCall) :=
  let cache := st.1
  let calls := st.2
  match pipLayout[attr_index]? with
  | some attr =>
    match bindings.vertex_buffers[attr.buffer_index]? with
    | none => none
    | some vb =>
      if needsRebind (cache.attributes.getD attr_index none) attr vb.gl_buf
      then
        let r1 := cache.bind_buffer GL_ARRAY_BUFFER vb.gl_buf
        let c2 := { r1.1 with
          attributes := r1.1.attributes.set attr_index
            (some { attr := attr, gl_vbuf := vb.gl_buf }) }
        some (c2, calls ++ r1.2 ++
          [.glVertexAttribPointer attr_index attr.size attr.type_
            attr.stride attr.offset,
           .glVertexAttribDivisor attr_index (u32cast attr.divisor),
           .glEnableVertexAttribArray attr_index])
      else some (cache, calls)
  | none =>
    match cache.attributes.getD attr_index none with
    | some _ =>
      some ({ cache with
                attributes := cache.attributes.set attr_index none },
            calls ++ [.glDisableVertexAttribArray attr_index])
    | none => some (cache, calls)

/-- The attribute loop of `Context::apply_bindings`, folded over the slot
indices. -/
def attrLoop (bindings : Bindings)
    (pipLayout : List VertexAttributeInternal) :
    List Nat → GlCache × List GLCall → Option (GlCache × List GLCall)
  | [], st => some st
  | i :: rest, st =>
    match applyBindingsSlot bindings pipLayout st i with
    | none => none
    | some st' => attrLoop bindings pipLayout rest st'

/-- The image-binding loop of `Context::apply_bindings` (lines 575-585):
for the `n`-th declared shader image, activate texture unit `n`, bind the
`n`-th bound texture and point the sampler uniform at unit `n`. `none`
models the `panic!` when the bindings hold fewer images than the shader
declares. -/
def applyImages (images : List Texture) :
    List Int → Nat → Option (List GLCall)
  | [], _ => some []
  | gl_loc :: rest, n =>
    match images[n]? with
    | none => none
    | some img =>
      match applyImages images rest (n + 1) with
      | none => none
      | some cs =>
        some (.glActiveTexture (GL_TEXTURE0 + n) :: .glBindTexture img.texture
          :: .glUniform1i gl_loc n :: cs)

/-- `Context::apply_bindings` of `graphics.rs` (lines 571-633): image
bindings, the cached index-buffer bind, then the per-slot attribute loop.
`pipLayout` is the layout of the pipeline stored in `cache.cur_pipeline`
and `shaderImages` the resolved image locations of its shader. -/
def Context.apply_bindings (cache : GlCache)
    (pipLayout : List VertexAttributeInternal) (shaderImages : List Int)
    (bindings : Bindings) : Option (GlCache × List GLCall) :=
  match applyImages bindings.images shaderImages 0 with
  | none => none
  | some imgCalls =>
    let r1 := cache.bind_buffer GL_ELEMENT_ARRAY_BUFFER
      bindings.index_buffer.gl_buf
    attrLoop bindings pipLayout (List.range MAX_VERTEX_ATTRIBUTES)
      (r1.1, imgCalls ++ r1.2)

/-- The cache entry slot `i` must hold after `Context::apply_bindings` with
layout `pipLayout` and bindings `bindings`: the layout record paired with
the handle of the vertex buffer it was bound against, or `none` when the
pipeline does not define the slot. -/
def expectedSlot (bindings : Bindings)
    (pipLayout : List VertexAttributeInternal) (i : Nat) :
    Option CachedAttribute :=
  match pipLayout[i]? with
  | some attr =>
    match bindings.vertex_buffers[attr.buffer_index]? with
    | some vb => some { attr := attr, gl_vbuf := vb.gl_buf }
    | none => none
  | none => none

/-- The blend reconciliation of `Context::apply_pipeline` (lines 547-562):
when the cached blend state `old` differs from the pipeline's `new`, a
`none → some` transition enables blending before the factor and equation
calls, a `some → none` transition disables it, and the cached state becomes
`new`; when they agree nothing is issued (in the source the cache field is
then simply left untouched, which is the same resulting state). -/
def blendTransition (old new : BlendState) : BlendState × List GLCall :=
  if old = new then (old, []) else
    match new with
    | some (equation, src, dst) =>
      (new,
       (if old = none then [.glEnable GL_BLEND] else []) ++
         [.glBlendFunc src.toGLenum dst.toGLenum,
          .glBlendEquationSeparate equation.toGLenum equation.toGLenum])
    | none => (new, if old.isSome then [.glDisable GL_BLEND] else [])

/-- `Context::apply_pipeline` of `graphics.rs` (lines 523-563): record the
pipeline, select its program, enable scissor, set the depth state from
`depth_write`/`depth_test`, and reconcile the cached blend state with the
pipeline's via `blendTransition`. -/
def Context.apply_pipeline (cache : GlCache) (pipelineIdx : Nat)
    (params : PipelineParams) (program : Nat) : GlCache × List GLCall :=
  let cache := { cache with cur_pipeline := some pipelineIdx }
  let depthCalls : List GLCall :=
    if params.depth_write then
      [.glEnable GL_DEPTH_TEST, .glDepthFunc params.depth_test.toGLenum]
    else
      [.glDisable GL_DEPTH_TEST]
  let bs := blendTransition cache.blend params.color_blend
  ({ cache with blend := bs.1 },
   [.glUseProgram program, .glEnable GL_SCISSOR_TEST] ++ depthCalls ++ bs.2)

/-- The calls counted by claim C4: vertex/index buffer binds and attribute
pointer/divisor/enable/disable calls. -/
def isBufferOrAttrCall : GLCall → Bool
  | .glBindBuffer _ _ => true
  | .glVertexAttribPointer _ _ _ _ _ => true
  | .glVertexAttribDivisor _ _ => true
  | .glEnableVertexAttribArray _ => true
  | .glDisableVertexAttribArray _ => true
  | _ => false

/-- Blend-related driver calls: blend enable/disable toggles, factor and
equation calls. -/
def isBlendCall : GLCall → Bool
  | .glEnable cap => cap == GL_BLEND
  | .glDisable cap => cap == GL_BLEND
  | .glBlendFunc _ _ => true
  | .glBlendEquationSeparate _ _ => true
  | _ => false

/-- Depth-related driver calls: depth-test enable/disable toggles and the
comparison function call. -/
def isDepthCall : GLCall → Bool
  | .glEnable cap => cap == GL_DEPTH_TEST
  | .glDisable cap => cap == GL_DEPTH_TEST
  | .glDepthFunc _ => true
  | _ => false

/-- The stride of buffer slot `b` as the first pass of
`Pipeline::with_params` computes it, folded over the declared attribute
list from `init`. -/
def slotStrideFold (buffer_layout : List BufferLayout) (b : Nat)
    (attrs : List VertexAttribute) (init : Int) : Int :=
  attrs.foldl
    (fun st a =>
      if a.buffer_index = b then
        match buffer_layout[b]? with
        | some layout =>
          if layout.stride = 0 then i32wrap (st + a.format.byte_len)
          else layout.stride
        | none => st
      else st)
    init

/- ------------------------------------------------------------------ -/
/- Theorems.                                                          -/
/- ------------------------------------------------------------------ -/

theorem i32wrap_eq_self {x : Int} (h1 : -(2 ^ 31) ≤ x) (h2 : x < 2 ^ 31) :
    i32wrap x = x := by
  have e32 : (2 : Int) ^ 32 = 4294967296 := by norm_num
  have e31 : (2 : Int) ^ 31 = 2147483648 := by norm_num
  unfold i32wrap
  rw [e32, e31] at *
  omega

theorem i64wrap_eq_self {x : Int} (h1 : -(2 ^ 63) ≤ x) (h2 : x < 2 ^ 63) :
    i64wrap x = x := by
  have e64 : (2 : Int) ^ 64 = 18446744073709551616 := by norm_num
  have e63 : (2 : Int) ^ 63 = 9223372036854775808 := by norm_num
  unfold i64wrap
  rw [e64, e63] at *
  omega

theorem u32cast_coe_eq_self {n : Nat} (h : n < 2 ^ 32) :
    u32cast (n : Int) = n := by
  have e32 : (2 : Int) ^ 32 = 4294967296 := by norm_num
  have e32n : (2 : Nat) ^ 32 = 4294967296 := by norm_num
  unfold u32cast
  rw [e32]
  rw [e32n] at h
  omega

/-- C10: for every `r, g, b, a`, `PassAction::clear_color(r, g, b, a)`
carries the color clear `(r, g, b, a)`, a depth clear of `1.0` and no
stencil clear, and beginning a pass with it issues a `glClear` whose bit
mask sets the color and depth buffer bits and not the stencil bit. -/
theorem clear_color_clears_color_and_depth (r g b a : Rat) :
    PassAction.clear_color r g b a =
      PassAction.Clear (some (r, g, b, a)) (some 1) none ∧
    ∀ (fb : Nat) (w h : Int), ∃ bits : Nat,
      GLCall.glClear bits ∈
        Context.begin_pass fb w h (PassAction.clear_color r g b a) ∧
      bits &&& GL_COLOR_BUFFER_BIT ≠ 0 ∧
      bits &&& GL_DEPTH_BUFFER_BIT ≠ 0 ∧
      bits &&& GL_STENCIL_BUFFER_BIT = 0 := by
  refine ⟨rfl, fun fb w h => ⟨GL_COLOR_BUFFER_BIT ||| GL_DEPTH_BUFFER_BIT,
    ?_, by decide, by decide, by decide⟩⟩
  simp only [Context.begin_pass, PassAction.clear_color, Context.clear]
  rw [if_pos (by decide)]
  simp

/-- C7 counterexample: with an offscreen framebuffer `3` bound before the
call and a default framebuffer `0`, `RenderPass::new` leaves framebuffer
`0` bound, not the prior binding `3` — construction does disturb the
binding for a non-default prior binding. -/
theorem renderpass_restore_counterexample :
    fbBindingAfter 3 (RenderPass.new_calls 0 10 none 1) ≠ 3 := by decide

/-- C7 amended: after `RenderPass::new`, the bound framebuffer is the
context's `default_framebuffer`, whatever was bound before; hence the prior
binding is preserved exactly when it was the default framebuffer. -/
theorem renderpass_new_binds_default (prior default_fb color gl_fb : Nat)
    (depth : Option Nat) :
    fbBindingAfter prior
        (RenderPass.new_calls default_fb color depth gl_fb) = default_fb ∧
    (fbBindingAfter prior
        (RenderPass.new_calls default_fb color depth gl_fb) = prior ↔
      prior = default_fb) := by
  have h : fbBindingAfter prior
      (RenderPass.new_calls default_fb color depth gl_fb) = default_fb := by
    cases depth <;> simp [RenderPass.new_calls, fbBindingAfter]
  exact ⟨h, by rw [h]; exact eq_comm⟩

/-- C6 (code bug): `Buffer::update` restores the binding saved by the most
recent `store_buffer_binding` — which it never calls — instead of the
binding current at entry. Concretely: with saved vertex binding `0` and
current vertex binding `5`, updating vertex buffer `7` leaves the tracked
vertex binding at `0`, not `5`. By contrast `Buffer::immutable`, which does
pair `store_buffer_binding` with `restore_buffer_binding`, always leaves
both tracked bindings unchanged. -/
theorem update_clobbers_current_binding :
    ((Buffer.update { gl_buf := 7, buffer_type := .VertexBuffer, size := 4 }
        { stored_index_buffer := 0, stored_vertex_buffer := 0,
          index_buffer := 0, vertex_buffer := 5, cur_pipeline := none,
          blend := none, attributes := List.replicate 16 none } 4).map
      (fun st => st.1.vertex_buffer) = some 0 ∧ (0 : Nat) ≠ 5) ∧
    ∀ (c : GlCache) (bt : BufferType) (g : Nat),
      (Buffer.immutable bt g c).1.vertex_buffer = c.vertex_buffer ∧
      (Buffer.immutable bt g c).1.index_buffer = c.index_buffer := by
  refine ⟨⟨by decide, by decide⟩, fun c bt g => ?_⟩
  cases bt <;>
    simp only [Buffer.immutable, gl_buffer_target,
      GlCache.store_buffer_binding, GlCache.bind_buffer,
      GlCache.restore_buffer_binding, GL_ARRAY_BUFFER,
      GL_ELEMENT_ARRAY_BUFFER] <;>
    norm_num <;> split <;> simp_all <;> split <;> simp_all

/-- C8 counterexample: a single declared `Float4` uniform needs 16 bytes,
yet with an 8-byte caller block (`size_of::<U>() = 8`) the
`apply_uniforms` offset walk passes its assertion and reads — the call does
not fail although the block is too small for the declared uniforms. -/
theorem apply_uniforms_small_block_no_panic :
    uniformsByteSize [UniformType.Float4] = 16 ∧
    8 < uniformsByteSize [UniformType.Float4] ∧
    apply_uniforms_check [UniformType.Float4] 0 8 = some [0] := by decide

theorem apply_uniforms_check_spec (sizeU : Nat) :
    ∀ (us : List UniformType) (off : Nat),
      (apply_uniforms_check us off sizeU = none ↔
        ∃ o ∈ floatOffsets us off, sizeU - 4 ≤ o) ∧
      (apply_uniforms_check us off sizeU ≠ none →
        apply_uniforms_check us off sizeU = some (floatOffsets us off)) := by
  intro us
  induction us with
  | nil => intro off; simp [apply_uniforms_check, floatOffsets]
  | cons u rest ih =>
    intro off
    rcases ih (off + u.size 1 / 4) with ⟨ih1, ih2⟩
    by_cases h : off < sizeU - 4
    · rcases hrest : apply_uniforms_check rest (off + u.size 1 / 4) sizeU with
        _ | os
      · have hex := ih1.mp hrest
        constructor
        · simp only [apply_uniforms_check, if_pos h, hrest, floatOffsets]
          constructor
          · intro _
            rcases hex with ⟨o, ho, hso⟩
            exact ⟨o, List.mem_cons_of_mem _ ho, hso⟩
          · intro _; trivial
        · intro hne
          exfalso
          apply hne
          simp only [apply_uniforms_check, if_pos h, hrest]
      · have hsome := ih2 (by rw [hrest]; exact fun hc => by cases hc)
        rw [hrest] at hsome
        have hos : os = floatOffsets rest (off + u.size 1 / 4) :=
          Option.some_injective _ hsome
        constructor
        · simp only [apply_uniforms_check, if_pos h, hrest, floatOffsets]
          constructor
          · intro hc; cases hc
          · intro hex
            rcases hex with ⟨o, ho, hso⟩
            rcases List.mem_cons.mp ho with rfl | ho
            · omega
            · exfalso
              have : apply_uniforms_check rest (off + u.size 1 / 4) sizeU
                  = none := ih1.mpr ⟨o, ho, hso⟩
              rw [hrest] at this; cases this
        · intro _
          simp only [apply_uniforms_check, if_pos h, hrest, floatOffsets, hos]
    · constructor
      · simp only [apply_uniforms_check, if_neg h, floatOffsets]
        constructor
        · intro _; exact ⟨off, List.mem_cons_self _ _, by omega⟩
        · intro _; trivial
      · intro hne
        exfalso
        apply hne
        simp only [apply_uniforms_check, if_neg h]

/-- C8 amended: the read offsets of `apply_uniforms` are exactly the
declared-order running sums of the uniform byte sizes (in `f32` units), and
the call panics precisely when some declared uniform's running offset
reaches `size_of::<U>() - 4`; a caller block too small for the declared
uniforms does not necessarily trigger the panic. -/
theorem apply_uniforms_offset_characterization (us : List UniformType)
    (sizeU : Nat) :
    (apply_uniforms_check us 0 sizeU = none ↔
      ∃ o ∈ floatOffsets us 0, sizeU - 4 ≤ o) ∧
    (apply_uniforms_check us 0 sizeU ≠ none →
      apply_uniforms_check us 0 sizeU = some (floatOffsets us 0)) :=
  apply_uniforms_check_spec sizeU us 0

/-- C8 amended witness: two `Float4` uniforms against a 64-byte block pass
the check and read at the declared-order offsets. -/
theorem apply_uniforms_offset_witness :
    apply_uniforms_check [UniformType.Float4, UniformType.Float4] 0 64 =
      some (floatOffsets [UniformType.Float4, UniformType.Float4] 0) :=
  (apply_uniforms_offset_characterization
    [UniformType.Float4, UniformType.Float4] 64).2 (by decide)

theorem blendTransition_filter_depth (old new : BlendState) :
    (blendTransition old new).2.filter isDepthCall = [] := by
  unfold blendTransition
  split
  · rfl
  · split
    · split <;>
        simp [isDepthCall, GL_BLEND, GL_DEPTH_TEST]
    · split <;> simp [isDepthCall, GL_BLEND, GL_DEPTH_TEST]

theorem apply_pipeline_calls (cache : GlCache) (idx prog : Nat)
    (params : PipelineParams) :
    (Context.apply_pipeline cache idx params prog).2 =
      [.glUseProgram prog, .glEnable GL_SCISSOR_TEST] ++
        (if params.depth_write then
          [.glEnable GL_DEPTH_TEST, .glDepthFunc params.depth_test.toGLenum]
         else [.glDisable GL_DEPTH_TEST]) ++
        (blendTransition cache.blend params.color_blend).2 := rfl

/-- C5: blend transitions in `apply_pipeline`: from no cached blend to a
blend triple, the blend-related calls are exactly one enable followed by
the factor and equation calls; from a cached triple to none, exactly one
disable; and when the pipeline's blend state equals the cached one, no
blend-related call at all. -/
theorem apply_pipeline_blend_transitions (cache : GlCache) (idx prog : Nat)
    (params : PipelineParams) :
    (∀ e s d, cache.blend = none → params.color_blend = some (e, s, d) →
      ((Context.apply_pipeline cache idx params prog).2.filter isBlendCall) =
        [.glEnable GL_BLEND, .glBlendFunc s.toGLenum d.toGLenum,
         .glBlendEquationSeparate e.toGLenum e.toGLenum]) ∧
    (∀ t, cache.blend = some t → params.color_blend = none →
      ((Context.apply_pipeline cache idx params prog).2.filter isBlendCall) =
        [.glDisable GL_BLEND]) ∧
    (params.color_blend = cache.blend →
      ((Context.apply_pipeline cache idx params prog).2.filter isBlendCall) =
        []) := by
  have hbase : ∀ l : List GLCall,
      (([GLCall.glUseProgram prog, GLCall.glEnable GL_SCISSOR_TEST] ++
        (if params.depth_write then
          [GLCall.glEnable GL_DEPTH_TEST,
           GLCall.glDepthFunc params.depth_test.toGLenum]
         else [GLCall.glDisable GL_DEPTH_TEST]) ++ l).filter isBlendCall) =
        l.filter isBlendCall := by
    intro l
    rcases hd : params.depth_write <;>
      simp [isBlendCall, GL_SCISSOR_TEST, GL_BLEND, GL_DEPTH_TEST]
  refine ⟨?_, ?_, ?_⟩
  · intro e s d hc hp
    rw [apply_pipeline_calls, hbase, hc, hp]
    simp [blendTransition, isBlendCall, GL_BLEND]
  · intro t hc hp
    rw [apply_pipeline_calls, hbase, hc, hp]
    simp [blendTransition, isBlendCall, GL_BLEND]
  · intro hp
    rw [apply_pipeline_calls, hbase, hp]
    simp [blendTransition]

/-- C5 witness: from an empty blend cache, applying a pipeline with blend
`(Add, One, Zero)` issues exactly enable, factor, equation. -/
theorem apply_pipeline_blend_transitions_witness :
    ((Context.apply_pipeline
        { stored_index_buffer := 0, stored_vertex_buffer := 0,
          index_buffer := 0, vertex_buffer := 0, cur_pipeline := none,
          blend := none, attributes := List.replicate 16 none } 0
        { cull_face_nothing := true, front_face_order_ccw := true,
          depth_test := .Always, depth_write := false,
          depth_write_offset := none,
          color_blend := some (.Add, .One, .Zero),
          color_write := (true, true, true, true) } 7).2.filter
      isBlendCall) =
      [.glEnable GL_BLEND, .glBlendFunc GL_ONE GL_ZERO,
       .glBlendEquationSeparate GL_FUNC_ADD GL_FUNC_ADD] :=
  (apply_pipeline_blend_transitions _ 0 7 _).1 .Add .One .Zero rfl rfl

/-- C9: `apply_pipeline` enables depth testing (and sets the pipeline's
depth comparison) exactly when `depth_write` is true; with `depth_write`
false it disables depth testing and the declared comparison has no effect
on the issued calls. -/
theorem apply_pipeline_depth_write_gates_depth_test (cache : GlCache)
    (idx prog : Nat) (params : PipelineParams) :
    (params.depth_write = true →
      ((Context.apply_pipeline cache idx params prog).2.filter isDepthCall) =
        [.glEnable GL_DEPTH_TEST, .glDepthFunc params.depth_test.toGLenum]) ∧
    (params.depth_write = false →
      ((Context.apply_pipeline cache idx params prog).2.filter isDepthCall) =
        [.glDisable GL_DEPTH_TEST]) ∧
    (params.depth_write = false → ∀ cmp,
      Context.apply_pipeline cache idx { params with depth_test := cmp } prog
        = Context.apply_pipeline cache idx params prog) := by
  refine ⟨?_, ?_, ?_⟩
  · intro hd
    rw [apply_pipeline_calls]
    simp [hd, isDepthCall, GL_SCISSOR_TEST, GL_BLEND, GL_DEPTH_TEST,
      blendTransition_filter_depth]
  · intro hd
    rw [apply_pipeline_calls]
    simp [hd, isDepthCall, GL_SCISSOR_TEST, GL_BLEND, GL_DEPTH_TEST,
      blendTransition_filter_depth]
  · intro hd cmp
    unfold Context.apply_pipeline
    simp [hd]

/-- C9 witness: with `depth_write` false, the depth-related calls of a
concrete apply are exactly one disable, and changing the (ignored)
comparison function changes nothing. -/
theorem apply_pipeline_depth_write_witness :
    ((Context.apply_pipeline
        { stored_index_buffer := 0, stored_vertex_buffer := 0,
          index_buffer := 0, vertex_buffer := 0, cur_pipeline := none,
          blend := none, attributes := List.replicate 16 none } 0
        { cull_face_nothing := true, front_face_order_ccw := true,
          depth_test := .Less, depth_write := false,
          depth_write_offset := none, color_blend := none,
          color_write := (true, true, true, true) } 7).2.filter
      isDepthCall) = [.glDisable GL_DEPTH_TEST] :=
  (apply_pipeline_depth_write_gates_depth_test _ 0 7 _).2.1 rfl

theorem writeSubAttrs_spec (s : Int) (bi : Nat) (dv : Int)
    (fmt : VertexFormat) (base : Nat) :
    ∀ (count i : Nat) (off : Int) (arr : List VertexAttributeInternal),
      base + i + count ≤ 2 ^ 32 →
      (∀ k : Nat, k < count → base + i + k < arr.length) →
      0 ≤ off → off + count * (4 * fmt.size) < 2 ^ 63 →
      0 < fmt.size →
      ∃ arrOut,
        writeSubAttrs s bi dv fmt base count i off arr =
          .ok (off + count * (4 * fmt.size), arrOut) ∧
        (∀ k : Nat, k < count →
          arrOut[base + i + k]? = some
            { attr_loc := base + i + k, size := fmt.size,
              type_ := fmt.type_, offset := off + k * (4 * fmt.size),
              stride := s, buffer_index := bi, divisor := dv }) ∧
        (∀ j : Nat, j < base + i ∨ base + i + count ≤ j →
          arrOut[j]? = arr[j]?) ∧
        arrOut.length = arr.length := by
  intro count
  induction count with
  | zero =>
    intro i off arr h32 hk hoff0 hoff1 hsz
    refine ⟨arr, by simp [writeSubAttrs], by omega, fun j hj => rfl, rfl⟩
  | succ count ih =>
    intro i off arr h32 hk hoff0 hoff1 hsz
    have hmod : (base + i) % 2 ^ 32 = base + i := by
      have p32 : (2 : Nat) ^ 32 = 4294967296 := by norm_num
      apply Nat.mod_eq_of_lt
      omega
    have hin : base + i < arr.length := by
      have := hk 0 (by omega)
      omega
    have hwr : i64wrap (off + 4 * fmt.size) = off + 4 * fmt.size := by
      apply i64wrap_eq_self
      · have e63 : (2 : Int) ^ 63 = 9223372036854775808 := by norm_num
        omega
      · have hc0 : (0 : Int) ≤ (count : Int) * (4 * fmt.size) := by positivity
        have : ((count : Int) + 1) * (4 * fmt.size) =
            4 * fmt.size + (count : Int) * (4 * fmt.size) := by ring
        push_cast at hoff1
        omega
    have hstep : writeSubAttrs s bi dv fmt base (count + 1) i off arr =
        writeSubAttrs s bi dv fmt base count (i + 1) (off + 4 * fmt.size)
          (arr.set (base + i)
            { attr_loc := base + i, size := fmt.size, type_ := fmt.type_,
              offset := off, stride := s, buffer_index := bi,
              divisor := dv }) := by
      simp only [writeSubAttrs, writeRecord, hmod]
      rw [if_pos hin, hwr]
    obtain ⟨arrOut, heq, hrec, hun, hlen⟩ :=
      ih (i + 1) (off + 4 * fmt.size)
        (arr.set (base + i)
          { attr_loc := base + i, size := fmt.size, type_ := fmt.type_,
            offset := off, stride := s, buffer_index := bi, divisor := dv })
        (by omega)
        (by
          intro k hk2
          rw [List.length_set]
          have := hk (k + 1) (by omega)
          omega)
        (by positivity)
        (by
          have : off + 4 * fmt.size + (count : Int) * (4 * fmt.size) =
              off + ((count : Int) + 1) * (4 * fmt.size) := by ring
          push_cast
          push_cast at hoff1
          omega)
        hsz
    refine ⟨arrOut, ?_, ?_, ?_, by rw [hlen, List.length_set]⟩
    · rw [hstep, heq,
        show off + 4 * fmt.size + (count : Int) * (4 * fmt.size) =
          off + ((count + 1 : Nat) : Int) * (4 * fmt.size) by push_cast; ring]
    · intro k hk2
      rcases k with _ | k
      · simp only [Nat.add_zero, Nat.cast_zero, zero_mul, add_zero]
        rw [hun (base + i) (by omega), List.getElem?_set_self hin]
      · have := hrec k (by omega)
        have e1 : base + (i + 1) + k = base + i + (k + 1) := by omega
        rw [e1] at this
        rw [this]
        have e2 : off + 4 * fmt.size + (k : Int) * (4 * fmt.size) =
            off + ((k : Nat) + 1 : Nat) * (4 * fmt.size) := by
          push_cast
          ring
        rw [e2]
    · intro j hj
      have h1 := hun j (by omega)
      rw [h1, List.getElem?_set_ne (by omega)]

/-- C1: processing a `Mat4` attribute of buffer slot `b` whose resolved
base location is `base`, when the slot's running offset is `o` and its
computed stride `s`, writes exactly 4 consecutive records at locations
`base, base+1, base+2, base+3`, each with component count 4 and GL float
type, byte offsets `o, o+16, o+32, o+48` and stride `s`, leaves every other
array entry unchanged, and advances the slot's running offset to `o+64`. -/
theorem mat4_expands_to_four_records
    (buffer_layout : List BufferLayout) (attrLocOf : String → Int)
    (name : String) (b base : Nat) (s o : Int) (layout : BufferLayout)
    (buffer_cache : List BufferCacheData)
    (arr : List VertexAttributeInternal)
    (hc : buffer_cache[b]? = some { stride := s, offset := o })
    (hl : buffer_layout[b]? = some layout)
    (hf : attrLocOf name = (base : Int))
    (hlen : base + 3 < arr.length)
    (h32 : base + 3 < 2 ^ 32)
    (ho0 : 0 ≤ o) (ho : o + 64 < 2 ^ 63) :
    ∃ arrOut,
      processAttr buffer_layout attrLocOf
          { name := name, format := .Mat4, buffer_index := b }
          buffer_cache arr =
        .ok (buffer_cache.set b { stride := s, offset := o + 64 }, arrOut) ∧
      (∀ i : Nat, i < 4 →
        arrOut[base + i]? = some
          { attr_loc := base + i, size := 4, type_ := GL_FLOAT,
            offset := o + i * 16, stride := s, buffer_index := b,
            divisor := if layout.step_func = VertexStep.PerVertex then 0
                       else layout.step_rate }) ∧
      (∀ j : Nat, j < base ∨ base + 3 < j → arrOut[j]? = arr[j]?) ∧
      arrOut.length = arr.length := by
  obtain ⟨arrOut, heq, hrec, hun, hlenOut⟩ :=
    writeSubAttrs_spec s b
      (if layout.step_func = VertexStep.PerVertex then 0 else layout.step_rate)
      VertexFormat.Float4 base 4 0 o arr
      (by
        have p32 : (2 : Nat) ^ 32 = 4294967296 := by norm_num
        omega)
      (by intro k hk; omega)
      ho0
      (by
        have : ((4 : Nat) : Int) * (4 * VertexFormat.size .Float4) = 64 := by
          norm_num [VertexFormat.size]
        rw [this]
        exact ho)
      (by norm_num [VertexFormat.size])
  refine ⟨arrOut, ?_, ?_, ?_, hlenOut⟩
  · have hbi : ({ name := name, format := .Mat4, buffer_index := b } :
        VertexAttribute).buffer_index = b := rfl
    have hnm : ({ name := name, format := .Mat4, buffer_index := b } :
        VertexAttribute).name = name := rfl
    have hfm : ({ name := name, format := .Mat4, buffer_index := b } :
        VertexAttribute).format = VertexFormat.Mat4 := rfl
    simp only [processAttr, hbi, hnm, hfm, hc, hl, hf]
    rw [if_neg (show ¬((base : Int) = -1) by omega)]
    simp only [if_true]
    rw [u32cast_coe_eq_self (by
      have p32 : (2 : Nat) ^ 32 = 4294967296 := by norm_num
      omega)]
    rw [heq, show o + ((4 : Nat) : Int) *
      (4 * VertexFormat.size VertexFormat.Float4) = o + 64 by
        norm_num [VertexFormat.size]]
  · intro i hi
    have h := hrec i hi
    have e1 : base + 0 + i = base + i := by omega
    rw [e1] at h
    rw [h]
    have e2 : o + (i : Int) * (4 * VertexFormat.size .Float4) =
        o + (i : Int) * 16 := by norm_num [VertexFormat.size]
    rw [e2]
    rfl
  · intro j hj
    exact hun j (by omega)

/-- C1 witness: a `Mat4` attribute at slot 0 with base location 0, offset 0
and stride 64 expands into the 4 expected records. -/
theorem mat4_expands_witness :
    ∃ arrOut,
      processAttr [{ stride := 64, step_func := .PerVertex, step_rate := 1 }]
          (fun _ => (0 : Int))
          { name := "m", format := .Mat4, buffer_index := 0 }
          [{ stride := 64, offset := 0 }]
          (List.replicate 4 VertexAttributeInternal.default) =
        .ok ([{ stride := 64, offset := 0 }].set 0
              { stride := 64, offset := 0 + 64 }, arrOut) ∧
      (∀ i : Nat, i < 4 →
        arrOut[0 + i]? = some
          { attr_loc := 0 + i, size := 4, type_ := GL_FLOAT,
            offset := 0 + i * 16, stride := 64, buffer_index := 0,
            divisor := 0 }) ∧
      (∀ j : Nat, j < 0 ∨ 0 + 3 < j →
        arrOut[j]? =
          (List.replicate 4 VertexAttributeInternal.default)[j]?) ∧
      arrOut.length =
        (List.replicate 4 VertexAttributeInternal.default).length :=
  mat4_expands_to_four_records
    [{ stride := 64, step_func := .PerVertex, step_rate := 1 }]
    (fun _ => (0 : Int)) "m" 0 0 64 0
    { stride := 64, step_func := .PerVertex, step_rate := 1 }
    [{ stride := 64, offset := 0 }]
    (List.replicate 4 VertexAttributeInternal.default)
    rfl rfl rfl (by decide) (by norm_num) (by norm_num) (by norm_num)

theorem writeSubAttrs_length (s : Int) (bi : Nat) (dv : Int)
    (fmt : VertexFormat) (base : Nat) :
    ∀ (count i : Nat) (off : Int) (arr arrOut : List VertexAttributeInternal)
      (offOut : Int),
      writeSubAttrs s bi dv fmt base count i off arr = .ok (offOut, arrOut) →
      arrOut.length = arr.length := by
  intro count
  induction count with
  | zero =>
    intro i off arr arrOut offOut h
    simp only [writeSubAttrs, Except.ok.injEq, Prod.mk.injEq] at h
    rw [← h.2]
  | succ count ih =>
    intro i off arr arrOut offOut h
    simp only [writeSubAttrs, writeRecord] at h
    by_cases hcl : (base + i) % 2 ^ 32 < arr.length
    · rw [if_pos hcl] at h
      have := ih (i + 1) (i64wrap (off + 4 * fmt.size)) _ arrOut offOut h
      rw [this, List.length_set]
    · rw [if_neg hcl] at h
      cases h

theorem processAttr_length (bl : List BufferLayout) (f : String → Int)
    (a : VertexAttribute) (bc bc' : List BufferCacheData)
    (arr arr' : List VertexAttributeInternal)
    (h : processAttr bl f a bc arr = .ok (bc', arr')) :
    arr'.length = arr.length := by
  rcases hbc : bc[a.buffer_index]? with _ | bd
  · simp [processAttr, hbc] at h
  · rcases hbl : bl[a.buffer_index]? with _ | lay
    · simp [processAttr, hbc, hbl] at h
    · simp only [processAttr, hbc, hbl] at h
      by_cases hn : f a.name = -1
      · rw [if_pos hn] at h; simp at h
      · rw [if_neg hn] at h
        split at h
        · rename_i p offOut arrOut hws
          simp only [Except.ok.injEq, Prod.mk.injEq] at h
          rw [← h.2]
          exact writeSubAttrs_length _ _ _ _ _ _ _ _ _ _ _ hws
        · simp at h

theorem buildLayout_length (bl : List BufferLayout) (f : String → Int) :
    ∀ (attrs : List VertexAttribute) (bc bc' : List BufferCacheData)
      (arr arr' : List VertexAttributeInternal),
      buildLayout bl f attrs bc arr = .ok (bc', arr') →
      arr'.length = arr.length := by
  intro attrs
  induction attrs with
  | nil =>
    intro bc bc' arr arr' h
    simp only [buildLayout, Except.ok.injEq, Prod.mk.injEq] at h
    rw [← h.2]
  | cons a rest ih =>
    intro bc bc' arr arr' h
    rcases hp : processAttr bl f a bc arr with _ | p
    · simp [buildLayout, hp] at h
    · rcases p with ⟨bcm, arrm⟩
      simp only [buildLayout, hp] at h
      exact (ih bcm bc' arrm arr' h).trans
        (processAttr_length bl f a bc bcm arr arrm hp)

/-- C3 counterexample: one `Float1` attribute whose shader-resolved
location is 1 — below the 16-slot limit — still aborts with
`AttributeLocationOverflow`, because the flat array is sized to the number
of expanded attributes (here 1), not to 16 or to the maximum resolved
location plus 1. -/
theorem location_overflow_below_16 :
    Pipeline.with_params
        [{ stride := 4, step_func := .PerVertex, step_rate := 1 }]
        [{ name := "a", format := .Float1, buffer_index := 0 }]
        (fun _ => 1) =
      .error .attributeLocationOverflow ∧ (1 : Nat) < 16 := ⟨rfl, by decide⟩

/-- C3 amended: the flat record array is sized to the total number of
expanded (sub-)attributes — 4 per `Mat4`, 1 otherwise — and a record store
fails with `AttributeLocationOverflow` exactly when its resolved location
is at least that array length; the fixed constant 16
(`MAX_VERTEX_ATTRIBUTES`) plays no role in this check. -/
theorem layout_array_size_and_overflow :
    (∀ (bl : List BufferLayout) (attrs : List VertexAttribute)
        (f : String → Int) (L : List VertexAttributeInternal),
      Pipeline.with_params bl attrs f = .ok L →
      L.length = attributesLen attrs) ∧
    (∀ (arr : List VertexAttributeInternal) (loc : Nat)
        (attr : VertexAttributeInternal),
      writeRecord arr loc attr = .error .attributeLocationOverflow ↔
        arr.length ≤ loc) := by
  constructor
  · intro bl attrs f L h
    rcases hss : strideSweep bl attrs
        (List.replicate bl.length BufferCacheData.default) with _ | bc
    · simp [Pipeline.with_params, hss] at h
    · rcases hbl : buildLayout bl f attrs bc
          (List.replicate (attributesLen attrs)
            VertexAttributeInternal.default) with _ | p
      · simp [Pipeline.with_params, hss, hbl] at h
      · rcases p with ⟨bcOut, arrOut⟩
        simp only [Pipeline.with_params, hss, hbl] at h
        by_cases ha : arrOut.any (fun attr => attr.size = 0)
        · rw [if_pos ha] at h; simp at h
        · rw [if_neg ha] at h
          simp only [Except.ok.injEq] at h
          rw [← h]
          exact (buildLayout_length bl f attrs bc _ _ _ hbl).trans
            (List.length_replicate _ _)
  · intro arr loc attr
    unfold writeRecord
    split <;> simp <;> omega

/-- C3 witness for the amended claim: a successful one-`Float2` compile
yields an array of length `attributesLen = 1`. -/
theorem layout_array_size_witness :
    ∃ L, Pipeline.with_params
        [{ stride := 0, step_func := .PerVertex, step_rate := 1 }]
        [{ name := "pos", format := .Float2, buffer_index := 0 }]
        (fun _ => 0) = .ok L ∧
      L.length = attributesLen
        [{ name := "pos", format := .Float2, buffer_index := 0 }] := by
  refine ⟨[{ attr_loc := 0, size := 2, type_ := GL_FLOAT, offset := 0,
             stride := 8, buffer_index := 0, divisor := 0 }], rfl, ?_⟩
  exact layout_array_size_and_overflow.1
    [{ stride := 0, step_func := .PerVertex, step_rate := 1 }]
    [{ name := "pos", format := .Float2, buffer_index := 0 }]
    (fun _ => 0) _ rfl

theorem byte_len_pos (fmt : VertexFormat) : 0 < fmt.byte_len := by
  cases fmt <;> norm_num [VertexFormat.byte_len]

theorem slotByteSum_cons (a : VertexAttribute) (rest : List VertexAttribute)
    (b : Nat) :
    slotByteSum (a :: rest) b =
      (if a.buffer_index = b then a.format.byte_len else 0) +
        slotByteSum rest b := by
  by_cases hab : a.buffer_index = b <;>
    simp [slotByteSum, List.filter_cons, hab]

theorem slotByteSum_nonneg (attrs : List VertexAttribute) (b : Nat) :
    0 ≤ slotByteSum attrs b := by
  induction attrs with
  | nil => simp [slotByteSum]
  | cons a rest ih =>
    rw [slotByteSum_cons]
    have := byte_len_pos a.format
    split <;> omega

theorem slotStrideFold_cons (bl : List BufferLayout) (b : Nat)
    (a : VertexAttribute) (rest : List VertexAttribute) (init : Int) :
    slotStrideFold bl b (a :: rest) init =
      slotStrideFold bl b rest
        (if a.buffer_index = b then
          match bl[b]? with
          | some layout =>
            if layout.stride = 0 then i32wrap (init + a.format.byte_len)
            else layout.stride
          | none => init
         else init) := rfl

theorem slotStrideFold_cons_matching (bl : List BufferLayout) (b : Nat)
    (a : VertexAttribute) (rest : List VertexAttribute) (init : Int)
    (lay : BufferLayout) (hbl : bl[b]? = some lay)
    (hab : a.buffer_index = b) :
    slotStrideFold bl b (a :: rest) init =
      slotStrideFold bl b rest
        (if lay.stride = 0 then i32wrap (init + a.format.byte_len)
         else lay.stride) := by
  rw [slotStrideFold_cons, if_pos hab]
  simp only [hbl]

theorem slotStrideFold_cons_skip (bl : List BufferLayout) (b : Nat)
    (a : VertexAttribute) (rest : List VertexAttribute) (init : Int)
    (hab : ¬(a.buffer_index = b)) :
    slotStrideFold bl b (a :: rest) init = slotStrideFold bl b rest init := by
  rw [slotStrideFold_cons, if_neg hab]

theorem strideSweep_spec (bl : List BufferLayout) :
    ∀ (attrs : List VertexAttribute) (cache cache' : List BufferCacheData),
      strideSweep bl attrs cache = some cache' →
      ∀ (b : Nat) (c : BufferCacheData), cache[b]? = some c →
        cache'[b]? = some { stride := slotStrideFold bl b attrs c.stride,
                            offset := c.offset } := by
  intro attrs
  induction attrs with
  | nil =>
    intro cache cache' h b c hc
    simp only [strideSweep, Option.some.injEq] at h
    subst h
    simpa [slotStrideFold] using hc
  | cons a rest ih =>
    intro cache cache' h b c hc
    rcases hbl : bl[a.buffer_index]? with _ | layout
    · simp [strideSweep, hbl] at h
    · rcases hcc : cache[a.buffer_index]? with _ | ca
      · simp [strideSweep, hbl, hcc] at h
      · simp only [strideSweep, hbl, hcc] at h
        have hlt : a.buffer_index < cache.length :=
          (List.getElem?_eq_some.mp hcc).1
        by_cases hab : a.buffer_index = b
        · subst hab
          rw [hc] at hcc
          injection hcc with h1
          subst h1
          rw [slotStrideFold_cons_matching bl a.buffer_index a rest c.stride
            layout hbl rfl]
          by_cases hls : layout.stride = 0
          · rw [if_pos hls]
            rw [if_pos hls] at h
            have hset : (cache.set a.buffer_index
                { c with stride := i32wrap (c.stride + a.format.byte_len)
                })[a.buffer_index]? =
                some { c with
                  stride := i32wrap (c.stride + a.format.byte_len) } :=
              List.getElem?_set_self hlt
            exact ih _ _ h _ _ hset
          · rw [if_neg hls]
            rw [if_neg hls] at h
            have hset : (cache.set a.buffer_index
                { c with stride := layout.stride })[a.buffer_index]? =
                some { c with stride := layout.stride } :=
              List.getElem?_set_self hlt
            exact ih _ _ h _ _ hset
        · rw [slotStrideFold_cons_skip bl b a rest c.stride hab]
          by_cases hls : layout.stride = 0
          · rw [if_pos hls] at h
            have hset : (cache.set a.buffer_index
                { ca with stride := i32wrap (ca.stride + a.format.byte_len)
                })[b]? = some c := by
              rw [List.getElem?_set_ne hab]
              exact hc
            exact ih _ _ h _ _ hset
          · rw [if_neg hls] at h
            have hset : (cache.set a.buffer_index
                { ca with stride := layout.stride })[b]? = some c := by
              rw [List.getElem?_set_ne hab]
              exact hc
            exact ih _ _ h _ _ hset

theorem slotStrideFold_auto (bl : List BufferLayout) (b : Nat)
    (lay : BufferLayout) (hbl : bl[b]? = some lay) (hz : lay.stride = 0) :
    ∀ (attrs : List VertexAttribute) (init : Int),
      0 ≤ init → init + slotByteSum attrs b < 2 ^ 31 →
      slotStrideFold bl b attrs init = init + slotByteSum attrs b := by
  intro attrs
  induction attrs with
  | nil =>
    intro init h0 h1
    simp [slotStrideFold, slotByteSum]
  | cons a rest ih =>
    intro init h0 h1
    have hsumr := slotByteSum_nonneg rest b
    have hpos := byte_len_pos a.format
    rw [slotByteSum_cons] at h1 ⊢
    by_cases hab : a.buffer_index = b
    · rw [slotStrideFold_cons_matching bl b a rest init lay hbl hab,
        if_pos hz]
      rw [if_pos hab] at h1 ⊢
      have hwrap : i32wrap (init + a.format.byte_len) =
          init + a.format.byte_len := by
        apply i32wrap_eq_self
        · have e31 : (2 : Int) ^ 31 = 2147483648 := by norm_num
          omega
        · omega
      rw [hwrap, ih (init + a.format.byte_len) (by omega) (by omega)]
      ring
    · rw [slotStrideFold_cons_skip bl b a rest init hab]
      rw [if_neg hab] at h1 ⊢
      rw [ih init h0 (by omega)]
      ring

theorem slotStrideFold_const (bl : List BufferLayout) (b : Nat)
    (lay : BufferLayout) (hbl : bl[b]? = some lay)
    (hnz : lay.stride ≠ 0) :
    ∀ attrs : List VertexAttribute,
      slotStrideFold bl b attrs lay.stride = lay.stride := by
  intro attrs
  induction attrs with
  | nil => simp [slotStrideFold]
  | cons a rest ih =>
    by_cases hab : a.buffer_index = b
    · rw [slotStrideFold_cons_matching bl b a rest lay.stride lay hbl hab,
        if_neg hnz]
      exact ih
    · rw [slotStrideFold_cons_skip bl b a rest lay.stride hab]
      exact ih

theorem slotStrideFold_explicit (bl : List BufferLayout) (b : Nat)
    (lay : BufferLayout) (hbl : bl[b]? = some lay)
    (hnz : lay.stride ≠ 0) :
    ∀ (attrs : List VertexAttribute) (init : Int),
      (∃ a ∈ attrs, a.buffer_index = b) →
      slotStrideFold bl b attrs init = lay.stride := by
  intro attrs
  induction attrs with
  | nil =>
    intro init h
    rcases h with ⟨a, ha, _⟩
    cases ha
  | cons a rest ih =>
    intro init h
    by_cases hab : a.buffer_index = b
    · rw [slotStrideFold_cons_matching bl b a rest init lay hbl hab,
        if_neg hnz]
      exact slotStrideFold_const bl b lay hbl hnz rest
    · rw [slotStrideFold_cons_skip bl b a rest init hab]
      rcases h with ⟨x, hx, hxb⟩
      rcases List.mem_cons.mp hx with rfl | hx2
      · exact absurd hxb hab
      · exact ih init ⟨x, hx2, hxb⟩

theorem writeSubAttrs_mem (s : Int) (bi : Nat) (dv : Int)
    (fmt : VertexFormat) (base : Nat) :
    ∀ (count i : Nat) (off : Int) (arr arrOut : List VertexAttributeInternal)
      (offOut : Int),
      writeSubAttrs s bi dv fmt base count i off arr = .ok (offOut, arrOut) →
      ∀ r ∈ arrOut, r ∈ arr ∨ (r.stride = s ∧ r.buffer_index = bi) := by
  intro count
  induction count with
  | zero =>
    intro i off arr arrOut offOut h r hr
    simp only [writeSubAttrs, Except.ok.injEq, Prod.mk.injEq] at h
    rw [← h.2] at hr
    exact Or.inl hr
  | succ count ih =>
    intro i off arr arrOut offOut h r hr
    simp only [writeSubAttrs, writeRecord] at h
    by_cases hcl : (base + i) % 2 ^ 32 < arr.length
    · rw [if_pos hcl] at h
      rcases ih (i + 1) (i64wrap (off + 4 * fmt.size)) _ arrOut offOut h r
          hr with hmem | hp
      · rcases List.mem_or_eq_of_mem_set hmem with hmem2 | rfl
        · exact Or.inl hmem2
        · exact Or.inr ⟨rfl, rfl⟩
      · exact Or.inr hp
    · rw [if_neg hcl] at h
      cases h

theorem processAttr_stride (bl : List BufferLayout) (f : String → Int)
    (a : VertexAttribute) (bc bc' : List BufferCacheData)
    (arr arr' : List VertexAttributeInternal)
    (h : processAttr bl f a bc arr = .ok (bc', arr')) :
    ∀ b : Nat, (bc'[b]?).map BufferCacheData.stride =
      (bc[b]?).map BufferCacheData.stride := by
  intro b
  rcases hbc : bc[a.buffer_index]? with _ | bd
  · simp [processAttr, hbc] at h
  · rcases hbl : bl[a.buffer_index]? with _ | lay
    · simp [processAttr, hbc, hbl] at h
    · simp only [processAttr, hbc, hbl] at h
      by_cases hn : f a.name = -1
      · rw [if_pos hn] at h; simp at h
      · rw [if_neg hn] at h
        split at h
        · rename_i p offOut arrOut hws
          simp only [Except.ok.injEq, Prod.mk.injEq] at h
          rw [← h.1]
          by_cases hab : a.buffer_index = b
          · subst hab
            rw [List.getElem?_set_self (List.getElem?_eq_some.mp hbc).1,
              hbc]
            rfl
          · rw [List.getElem?_set_ne hab]
        · simp at h

theorem processAttr_mem (bl : List BufferLayout) (f : String → Int)
    (a : VertexAttribute) (bc bc' : List BufferCacheData)
    (arr arr' : List VertexAttributeInternal)
    (h : processAttr bl f a bc arr = .ok (bc', arr')) :
    ∀ r ∈ arr', r ∈ arr ∨
      ∃ c, bc[a.buffer_index]? = some c ∧ r.stride = c.stride ∧
        r.buffer_index = a.buffer_index := by
  intro r hr
  rcases hbc : bc[a.buffer_index]? with _ | bd
  · simp [processAttr, hbc] at h
  · rcases hbl : bl[a.buffer_index]? with _ | lay
    · simp [processAttr, hbc, hbl] at h
    · simp only [processAttr, hbc, hbl] at h
      by_cases hn : f a.name = -1
      · rw [if_pos hn] at h; simp at h
      · rw [if_neg hn] at h
        split at h
        · rename_i p offOut arrOut hws
          simp only [Except.ok.injEq, Prod.mk.injEq] at h
          rw [← h.2] at hr
          rcases writeSubAttrs_mem _ _ _ _ _ _ _ _ _ _ _ hws r hr with
            hmem | ⟨hs, hb⟩
          · exact Or.inl hmem
          · exact Or.inr ⟨bd, rfl, hs, hb⟩
        · simp at h

theorem buildLayout_mem (bl : List BufferLayout) (f : String → Int) :
    ∀ (attrs : List VertexAttribute) (bc bc' : List BufferCacheData)
      (arr arr' : List VertexAttributeInternal),
      buildLayout bl f attrs bc arr = .ok (bc', arr') →
      ∀ r ∈ arr', r ∈ arr ∨
        ∃ a ∈ attrs, ∃ c, bc[a.buffer_index]? = some c ∧
          r.stride = c.stride ∧ r.buffer_index = a.buffer_index := by
  intro attrs
  induction attrs with
  | nil =>
    intro bc bc' arr arr' h r hr
    simp only [buildLayout, Except.ok.injEq, Prod.mk.injEq] at h
    rw [← h.2] at hr
    exact Or.inl hr
  | cons a rest ih =>
    intro bc bc' arr arr' h r hr
    rcases hp : processAttr bl f a bc arr with _ | p
    · simp [buildLayout, hp] at h
    · rcases p with ⟨bcm, arrm⟩
      simp only [buildLayout, hp] at h
      rcases ih bcm bc' arrm arr' h r hr with hmem | ⟨x, hx, c, hc, hs, hb⟩
      · rcases processAttr_mem bl f a bc bcm arr arrm hp r hmem with
          hmem2 | ⟨c, hc, hs, hb⟩
        · exact Or.inl hmem2
        · exact Or.inr ⟨a, List.mem_cons_self _ _, c, hc, hs, hb⟩
      · have hmap := processAttr_stride bl f a bc bcm arr arrm hp
          x.buffer_index
        rw [hc] at hmap
        rcases hc0 : bc[x.buffer_index]? with _ | c0
        · rw [hc0] at hmap; cases hmap
        · rw [hc0] at hmap
          simp only [Option.map_some'] at hmap
          injection hmap with h1
          exact Or.inr ⟨x, List.mem_cons_of_mem _ hx, c0, hc0,
            by rw [hs, ← h1], hb⟩

/-- C2: in a successful pipeline compilation, every attribute record of a
buffer slot with declared stride 0 carries the sum of the byte lengths of
all attributes declared for that slot (declaration order), and every record
of a slot with non-zero declared stride carries that declared stride as
is. -/
theorem record_stride_correct
    (bl : List BufferLayout) (attrs : List VertexAttribute)
    (f : String → Int) (L : List VertexAttributeInternal)
    (hok : Pipeline.with_params bl attrs f = .ok L)
    (r : VertexAttributeInternal) (hr : r ∈ L)
    (lay : BufferLayout) (hlay : bl[r.buffer_index]? = some lay) :
    (lay.stride = 0 → slotByteSum attrs r.buffer_index < 2 ^ 31 →
      r.stride = slotByteSum attrs r.buffer_index) ∧
    (lay.stride ≠ 0 → r.stride = lay.stride) := by
  rcases hss : strideSweep bl attrs
      (List.replicate bl.length BufferCacheData.default) with _ | bc
  · simp [Pipeline.with_params, hss] at hok
  · rcases hbl : buildLayout bl f attrs bc
        (List.replicate (attributesLen attrs)
          VertexAttributeInternal.default) with _ | p
    · simp [Pipeline.with_params, hss, hbl] at hok
    · rcases p with ⟨bcOut, arrOut⟩
      simp only [Pipeline.with_params, hss, hbl] at hok
      by_cases ha : arrOut.any (fun attr => attr.size = 0)
      · rw [if_pos ha] at hok; simp at hok
      · rw [if_neg ha] at hok
        simp only [Except.ok.injEq] at hok
        subst hok
        have hsz : r.size ≠ 0 := by
          intro h0
          exact ha (List.any_eq_true.mpr ⟨r, hr, by simp [h0]⟩)
        rcases buildLayout_mem bl f attrs bc _ _ _ hbl r hr with
          hmem | ⟨a, ha2, c, hc, hstride, hbi⟩
        · rw [List.eq_of_mem_replicate hmem] at hsz
          exact absurd rfl hsz
        · have hb : r.buffer_index < bl.length :=
            (List.getElem?_eq_some.mp hlay).1
          have hinit : (List.replicate bl.length
              BufferCacheData.default)[r.buffer_index]? =
              some BufferCacheData.default := by
            simp [List.getElem?_replicate, hb]
          have hsw := strideSweep_spec bl attrs _ _ hss r.buffer_index _
            hinit
          rw [← hbi] at hc
          rw [hc] at hsw
          injection hsw with h1
          have hcs : c.stride =
              slotStrideFold bl r.buffer_index attrs
                BufferCacheData.default.stride := by
            rw [h1]
          rw [hstride, hcs]
          have hdz : BufferCacheData.default.stride = 0 := rfl
          rw [hdz]
          constructor
          · intro hz hbound
            rw [slotStrideFold_auto bl r.buffer_index lay hlay hz attrs 0
              le_rfl (by omega)]
            omega
          · intro hnz
            exact slotStrideFold_explicit bl r.buffer_index lay hlay hnz
              attrs 0 ⟨a, ha2, hbi.symm⟩

/-- C2 witness: a two-`Float2` interleaved layout with auto stride yields
records whose stride is the 16-byte sum of the declared byte lengths. -/
theorem record_stride_witness :
    ({ attr_loc := 0, size := 2, type_ := GL_FLOAT, offset := 0,
       stride := 16, buffer_index := 0, divisor := 0 } :
        VertexAttributeInternal).stride =
      slotByteSum
        [{ name := "pos", format := .Float2, buffer_index := 0 },
         { name := "uv", format := .Float2, buffer_index := 0 }] 0 :=
  (record_stride_correct
    [{ stride := 0, step_func := .PerVertex, step_rate := 1 }]
    [{ name := "pos", format := .Float2, buffer_index := 0 },
     { name := "uv", format := .Float2, buffer_index := 0 }]
    (fun n => if n = "pos" then 0 else 1)
    [{ attr_loc := 0, size := 2, type_ := GL_FLOAT, offset := 0,
       stride := 16, buffer_index := 0, divisor := 0 },
     { attr_loc := 1, size := 2, type_ := GL_FLOAT, offset := 8,
       stride := 16, buffer_index := 0, divisor := 0 }]
    rfl _ (List.mem_cons_self _ _)
    { stride := 0, step_func := .PerVertex, step_rate := 1 } rfl).1
    rfl (by decide)

theorem getD_set_self {α : Type} (l : List α) (i : Nat) (v d : α)
    (h : i < l.length) : (l.set i v).getD i d = v := by
  simp [List.getD_eq_getElem?_getD, List.getElem?_set_self h]

theorem getD_set_ne {α : Type} (l : List α) (i j : Nat) (v d : α)
    (h : i ≠ j) : (l.set i v).getD j d = l.getD j d := by
  simp [List.getD_eq_getElem?_getD, List.getElem?_set_ne h]

theorem bind_buffer_array (c : GlCache) (buf : Nat) :
    (c.bind_buffer GL_ARRAY_BUFFER buf).1.index_buffer = c.index_buffer ∧
    (c.bind_buffer GL_ARRAY_BUFFER buf).1.attributes = c.attributes ∧
    (c.bind_buffer GL_ARRAY_BUFFER buf).1.vertex_buffer = buf := by
  unfold GlCache.bind_buffer
  rw [if_pos rfl]
  split
  · exact ⟨rfl, rfl, rfl⟩
  · rename_i hne
    refine ⟨rfl, rfl, ?_⟩
    simpa using hne

theorem bind_buffer_element (c : GlCache) (buf : Nat) :
    (c.bind_buffer GL_ELEMENT_ARRAY_BUFFER buf).1.vertex_buffer =
      c.vertex_buffer ∧
    (c.bind_buffer GL_ELEMENT_ARRAY_BUFFER buf).1.attributes =
      c.attributes ∧
    (c.bind_buffer GL_ELEMENT_ARRAY_BUFFER buf).1.index_buffer = buf := by
  unfold GlCache.bind_buffer
  rw [if_neg (by decide)]
  split
  · exact ⟨rfl, rfl, rfl⟩
  · rename_i hne
    refine ⟨rfl, rfl, ?_⟩
    simpa using hne

theorem bind_buffer_element_noop (c : GlCache) (buf : Nat)
    (h : c.index_buffer = buf) :
    c.bind_buffer GL_ELEMENT_ARRAY_BUFFER buf = (c, []) := by
  unfold GlCache.bind_buffer
  rw [if_neg (by decide), if_neg (by simp [h])]

theorem applyImages_filter (images : List Texture) :
    ∀ (locs : List Int) (n : Nat) (cs : List GLCall),
      applyImages images locs n = some cs →
      cs.filter isBufferOrAttrCall = [] := by
  intro locs
  induction locs with
  | nil =>
    intro n cs h
    simp only [applyImages, Option.some.injEq] at h
    rw [← h]
    rfl
  | cons gl_loc rest ih =>
    intro n cs h
    rcases himg : images[n]? with _ | img
    · simp [applyImages, himg] at h
    · rcases hrest : applyImages images rest (n + 1) with _ | cs2
      · simp [applyImages, himg, hrest] at h
      · simp only [applyImages, himg, hrest, Option.some.injEq] at h
        rw [← h]
        simp only [List.filter_cons]
        rw [if_neg (by simp [isBufferOrAttrCall]),
          if_neg (by simp [isBufferOrAttrCall]),
          if_neg (by simp [isBufferOrAttrCall])]
        exact ih (n + 1) cs2 hrest

theorem slot_step_spec (bindings : Bindings)
    (pipLayout : List VertexAttributeInternal) (c : GlCache)
    (acc : List GLCall) (i : Nat) (st' : GlCache × List GLCall)
    (h : applyBindingsSlot bindings pipLayout (c, acc) i = some st') :
    (∃ t, st'.2 = acc ++ t) ∧
    (∀ j : Nat, j ≠ i →
      st'.1.attributes.getD j none = c.attributes.getD j none) ∧
    (i < c.attributes.length →
      st'.1.attributes.getD i none = expectedSlot bindings pipLayout i) ∧
    st'.1.index_buffer = c.index_buffer ∧
    st'.1.attributes.length = c.attributes.length := by
  rcases hpip : pipLayout[i]? with _ | attr
  · rcases hcd : c.attributes.getD i none with _ | ca
    · simp only [applyBindingsSlot, hpip, hcd, Option.some.injEq] at h
      rw [← h]
      exact ⟨⟨[], by simp⟩, fun j hj => rfl,
        fun _ => by rw [hcd]; simp [expectedSlot, hpip], rfl, rfl⟩
    · simp only [applyBindingsSlot, hpip, hcd, Option.some.injEq] at h
      rw [← h]
      refine ⟨⟨[.glDisableVertexAttribArray i], rfl⟩, ?_, ?_, rfl, ?_⟩
      · intro j hj
        exact getD_set_ne _ _ _ _ _ (fun hij => hj hij.symm)
      · intro hilen
        rw [getD_set_self _ _ _ _ hilen]
        simp [expectedSlot, hpip]
      · exact List.length_set _ _ _
  · rcases hvb : bindings.vertex_buffers[attr.buffer_index]? with _ | vb
    · simp [applyBindingsSlot, hpip, hvb] at h
    · by_cases hnr :
        needsRebind (c.attributes.getD i none) attr vb.gl_buf = true
      · simp only [applyBindingsSlot, hpip, hvb] at h
        rw [if_pos hnr] at h
        simp only [Option.some.injEq] at h
        rw [← h]
        have hattrs := (bind_buffer_array c vb.gl_buf).2.1
        have hidx := (bind_buffer_array c vb.gl_buf).1
        refine ⟨⟨(c.bind_buffer GL_ARRAY_BUFFER vb.gl_buf).2 ++
          [.glVertexAttribPointer i attr.size attr.type_ attr.stride
            attr.offset,
           .glVertexAttribDivisor i (u32cast attr.divisor),
           .glEnableVertexAttribArray i], by simp⟩, ?_, ?_, hidx, ?_⟩
        · intro j hj
          rw [hattrs]
          exact getD_set_ne _ _ _ _ _ (fun hij => hj hij.symm)
        · intro hilen
          rw [hattrs, getD_set_self _ _ _ _ hilen]
          simp [expectedSlot, hpip, hvb]
        · rw [hattrs]
          exact List.length_set _ _ _
      · simp only [applyBindingsSlot, hpip, hvb] at h
        rw [if_neg hnr] at h
        simp only [Option.some.injEq] at h
        rw [← h]
        refine ⟨⟨[], by simp⟩, fun j hj => rfl, ?_, rfl, rfl⟩
        intro hilen
        rcases hcd : c.attributes.getD i none with _ | ca
        · rw [hcd] at hnr
          simp [needsRebind] at hnr
        · rcases ca with ⟨caa, cav⟩
          rw [hcd] at hnr
          simp only [needsRebind, decide_eq_true_eq] at hnr
          push_neg at hnr
          simp only [expectedSlot, hpip, hvb]
          rw [hnr.1, hnr.2]

theorem slot_step_noop (bindings : Bindings)
    (pipLayout : List VertexAttributeInternal) (c : GlCache)
    (acc : List GLCall) (i : Nat)
    (hslot : c.attributes.getD i none = expectedSlot bindings pipLayout i)
    (hvb : ∀ attr, pipLayout[i]? = some attr →
      ∃ vb, bindings.vertex_buffers[attr.buffer_index]? = some vb) :
    applyBindingsSlot bindings pipLayout (c, acc) i = some (c, acc) := by
  rcases hpip : pipLayout[i]? with _ | attr
  · simp only [expectedSlot, hpip] at hslot
    simp only [applyBindingsSlot, hpip, hslot]
  · rcases hvb attr hpip with ⟨vb, hvb2⟩
    simp only [expectedSlot, hpip, hvb2] at hslot
    simp only [applyBindingsSlot, hpip, hvb2]
    rw [if_neg (by
      rw [hslot]
      simp [needsRebind])]

theorem slot_step_rebind_mem (bindings : Bindings)
    (pipLayout : List VertexAttributeInternal) (c : GlCache)
    (acc : List GLCall) (i : Nat) (st' : GlCache × List GLCall)
    (attr : VertexAttributeInternal) (vb : Buffer)
    (hpip : pipLayout[i]? = some attr)
    (hvb : bindings.vertex_buffers[attr.buffer_index]? = some vb)
    (hnr : needsRebind (c.attributes.getD i none) attr vb.gl_buf = true)
    (h : applyBindingsSlot bindings pipLayout (c, acc) i = some st') :
    GLCall.glEnableVertexAttribArray i ∈ st'.2 := by
  simp only [applyBindingsSlot, hpip, hvb] at h
  rw [if_pos hnr] at h
  simp only [Option.some.injEq] at h
  rw [← h]
  simp

theorem attrLoop_mono (bindings : Bindings)
    (pipLayout : List VertexAttributeInternal) :
    ∀ (l : List Nat) (st st' : GlCache × List GLCall),
      attrLoop bindings pipLayout l st = some st' →
      ∀ x ∈ st.2, x ∈ st'.2 := by
  intro l
  induction l with
  | nil =>
    intro st st' h x hx
    simp only [attrLoop, Option.some.injEq] at h
    rw [← h]
    exact hx
  | cons i rest ih =>
    intro st st' h x hx
    rcases hstep : applyBindingsSlot bindings pipLayout st i with _ | st1
    · simp [attrLoop, hstep] at h
    · simp only [attrLoop, hstep] at h
      rcases st with ⟨c, acc⟩
      obtain ⟨t, ht⟩ := (slot_step_spec bindings pipLayout c acc i st1
        hstep).1
      exact ih st1 st' h x (by rw [ht]; exact List.mem_append_left _ hx)

theorem attrLoop_state (bindings : Bindings)
    (pipLayout : List VertexAttributeInternal) :
    ∀ (l : List Nat) (st st' : GlCache × List GLCall),
      attrLoop bindings pipLayout l st = some st' →
      st'.1.index_buffer = st.1.index_buffer ∧
      st'.1.attributes.length = st.1.attributes.length := by
  intro l
  induction l with
  | nil =>
    intro st st' h
    simp only [attrLoop, Option.some.injEq] at h
    rw [← h]
    exact ⟨rfl, rfl⟩
  | cons i rest ih =>
    intro st st' h
    rcases hstep : applyBindingsSlot bindings pipLayout st i with _ | st1
    · simp [attrLoop, hstep] at h
    · simp only [attrLoop, hstep] at h
      rcases st with ⟨c, acc⟩
      have hs := slot_step_spec bindings pipLayout c acc i st1 hstep
      have hr := ih st1 st' h
      exact ⟨hr.1.trans hs.2.2.2.1, hr.2.trans hs.2.2.2.2⟩

theorem attrLoop_slots (bindings : Bindings)
    (pipLayout : List VertexAttributeInternal) :
    ∀ (l : List Nat) (st st' : GlCache × List GLCall),
      attrLoop bindings pipLayout l st = some st' →
      (∀ i ∈ l, i < st.1.attributes.length) →
      ∀ j : Nat,
        st'.1.attributes.getD j none =
          if j ∈ l then expectedSlot bindings pipLayout j
          else st.1.attributes.getD j none := by
  intro l
  induction l with
  | nil =>
    intro st st' h hl j
    simp only [attrLoop, Option.some.injEq] at h
    rw [← h]
    simp
  | cons i rest ih =>
    intro st st' h hl j
    rcases hstep : applyBindingsSlot bindings pipLayout st i with _ | st1
    · simp [attrLoop, hstep] at h
    · simp only [attrLoop, hstep] at h
      rcases st with ⟨c, acc⟩
      have hs := slot_step_spec bindings pipLayout c acc i st1 hstep
      have hrest := ih st1 st' h
        (by
          intro k hk
          rw [hs.2.2.2.2]
          exact hl k (List.mem_cons_of_mem _ hk))
        j
      by_cases hjr : j ∈ rest
      · rw [hrest, if_pos hjr, if_pos (List.mem_cons_of_mem _ hjr)]
      · rw [hrest, if_neg hjr]
        by_cases hji : j = i
        · subst hji
          rw [if_pos (List.mem_cons_self _ _)]
          exact hs.2.2.1 (hl j (List.mem_cons_self _ _))
        · rw [if_neg (by
            intro hmem
            rcases List.mem_cons.mp hmem with h1 | h1
            · exact hji h1
            · exact hjr h1)]
          exact hs.2.1 j hji

theorem attrLoop_noop (bindings : Bindings)
    (pipLayout : List VertexAttributeInternal) :
    ∀ (l : List Nat) (c : GlCache) (acc : List GLCall),
      (∀ i ∈ l, c.attributes.getD i none =
        expectedSlot bindings pipLayout i) →
      (∀ i ∈ l, ∀ attr, pipLayout[i]? = some attr →
        ∃ vb, bindings.vertex_buffers[attr.buffer_index]? = some vb) →
      attrLoop bindings pipLayout l (c, acc) = some (c, acc) := by
  intro l
  induction l with
  | nil =>
    intro c acc hslots hvb
    rfl
  | cons i rest ih =>
    intro c acc hslots hvb
    have hstep := slot_step_noop bindings pipLayout c acc i
      (hslots i (List.mem_cons_self _ _))
      (hvb i (List.mem_cons_self _ _))
    simp only [attrLoop, hstep]
    exact ih c acc
      (fun k hk => hslots k (List.mem_cons_of_mem _ hk))
      (fun k hk => hvb k (List.mem_cons_of_mem _ hk))

theorem attrLoop_lookup (bindings : Bindings)
    (pipLayout : List VertexAttributeInternal) :
    ∀ (l : List Nat) (st st' : GlCache × List GLCall),
      attrLoop bindings pipLayout l st = some st' →
      ∀ i ∈ l, ∀ attr, pipLayout[i]? = some attr →
        ∃ vb, bindings.vertex_buffers[attr.buffer_index]? = some vb := by
  intro l
  induction l with
  | nil =>
    intro st st' h i hi
    cases hi
  | cons i0 rest ih =>
    intro st st' h i hi attr hattr
    rcases hstep : applyBindingsSlot bindings pipLayout st i0 with _ | st1
    · simp [attrLoop, hstep] at h
    · simp only [attrLoop, hstep] at h
      rcases List.mem_cons.mp hi with rfl | hi2
      · rcases hvb : bindings.vertex_buffers[attr.buffer_index]? with _ | vb
        · rcases st with ⟨c, acc⟩
          simp [applyBindingsSlot, hattr, hvb] at hstep
        · exact ⟨vb, rfl⟩
      · exact ih st1 st' h i hi2 attr hattr

theorem attrLoop_rebind_mem (bindings : Bindings)
    (pipLayout : List VertexAttributeInternal) :
    ∀ (l : List Nat) (c : GlCache) (acc : List GLCall)
      (st' : GlCache × List GLCall) (i : Nat)
      (ca : CachedAttribute) (attr : VertexAttributeInternal) (vb : Buffer),
      attrLoop bindings pipLayout l (c, acc) = some st' →
      i ∈ l →
      c.attributes.getD i none = some ca →
      pipLayout[i]? = some attr →
      bindings.vertex_buffers[attr.buffer_index]? = some vb →
      needsRebind (some ca) attr vb.gl_buf = true →
      GLCall.glEnableVertexAttribArray i ∈ st'.2 := by
  intro l
  induction l with
  | nil =>
    intro c acc st' i ca attr vb h hi
    cases hi
  | cons i0 rest ih =>
    intro c acc st' i ca attr vb h hi hca hattr hvb hnr
    rcases hstep : applyBindingsSlot bindings pipLayout (c, acc) i0 with
      _ | st1
    · simp [attrLoop, hstep] at h
    · simp only [attrLoop, hstep] at h
      rcases List.mem_cons.mp hi with rfl | hi2
      · have hmem := slot_step_rebind_mem bindings pipLayout c acc i st1
          attr vb hattr hvb (by rw [← hca] at hnr; exact hnr) hstep
        exact attrLoop_mono bindings pipLayout rest st1 st' h _ hmem
      · by_cases hii : i = i0
        · subst hii
          have hmem := slot_step_rebind_mem bindings pipLayout c acc i st1
            attr vb hattr hvb (by rw [← hca] at hnr; exact hnr) hstep
          exact attrLoop_mono bindings pipLayout rest st1 st' h _ hmem
        · have hs := slot_step_spec bindings pipLayout c acc i0 st1 hstep
          have hpres := hs.2.1 i hii
          rcases st1 with ⟨c1, acc1⟩
          exact ih c1 acc1 st' i ca attr vb h hi2
            (by rw [hpres]; exact hca) hattr hvb hnr

/-- C4: applying the same pipeline layout and bindings twice in a row: the
second `apply_bindings` leaves the cache unchanged and issues no
vertex/index buffer bind and no attribute pointer/divisor/enable/disable
call; and for every slot whose layout record or bound vertex-buffer handle
differs between a first and a second application, the second application
issues an attribute-enable (rebind) for that slot. -/
theorem apply_bindings_cache_correct
    (c0 : GlCache) (pip : List VertexAttributeInternal) (imgs : List Int)
    (b : Bindings) (c1 : GlCache) (calls1 : List GLCall)
    (hlen : c0.attributes.length = 16)
    (h1 : Context.apply_bindings c0 pip imgs b = some (c1, calls1)) :
    (∃ calls2, Context.apply_bindings c1 pip imgs b = some (c1, calls2) ∧
      calls2.filter isBufferOrAttrCall = []) ∧
    (∀ (pipB : List VertexAttributeInternal) (imgsB : List Int)
        (bB : Bindings) (c2 : GlCache) (calls2 : List GLCall) (i : Nat)
        (aA aB : VertexAttributeInternal) (vA vB : Buffer),
      Context.apply_bindings c1 pipB imgsB bB = some (c2, calls2) →
      i < 16 →
      pip[i]? = some aA →
      b.vertex_buffers[aA.buffer_index]? = some vA →
      pipB[i]? = some aB →
      bB.vertex_buffers[aB.buffer_index]? = some vB →
      aA ≠ aB ∨ vA.gl_buf ≠ vB.gl_buf →
      GLCall.glEnableVertexAttribArray i ∈ calls2) := by
  have hmax : MAX_VERTEX_ATTRIBUTES = 16 := rfl
  rcases himg : applyImages b.images imgs 0 with _ | imgCalls
  · simp [Context.apply_bindings, himg] at h1
  · simp only [Context.apply_bindings, himg] at h1
    have hb0 := bind_buffer_element c0 b.index_buffer.gl_buf
    have hstate :=
      attrLoop_state b pip (List.range MAX_VERTEX_ATTRIBUTES) _ _ h1
    have hc1idx : c1.index_buffer = b.index_buffer.gl_buf :=
      hstate.1.trans hb0.2.2
    have hc1len : c1.attributes.length = 16 := by
      have h2 := hstate.2
      have h3 : (c0.bind_buffer GL_ELEMENT_ARRAY_BUFFER
          b.index_buffer.gl_buf).1.attributes.length = 16 := by
        rw [hb0.2.1, hlen]
      exact h2.trans h3
    have hinlen : ∀ k ∈ List.range MAX_VERTEX_ATTRIBUTES,
        k < (c0.bind_buffer GL_ELEMENT_ARRAY_BUFFER
          b.index_buffer.gl_buf).1.attributes.length := by
      intro k hk
      rw [hb0.2.1, hlen]
      rw [hmax] at hk
      exact List.mem_range.mp hk
    have hslots :=
      attrLoop_slots b pip (List.range MAX_VERTEX_ATTRIBUTES) _ _ h1 hinlen
    have hc1slot : ∀ i : Nat, i < 16 →
        c1.attributes.getD i none = expectedSlot b pip i := by
      intro i hi
      have h2 := hslots i
      rw [if_pos (List.mem_range.mpr (by rw [hmax]; exact hi))] at h2
      exact h2
    have hlookup :=
      attrLoop_lookup b pip (List.range MAX_VERTEX_ATTRIBUTES) _ _ h1
    constructor
    · refine ⟨imgCalls ++ [], ?_, ?_⟩
      · simp only [Context.apply_bindings, himg,
          bind_buffer_element_noop c1 _ hc1idx]
        exact attrLoop_noop b pip (List.range MAX_VERTEX_ATTRIBUTES) c1
          (imgCalls ++ [])
          (fun i hi => hc1slot i (by
            rw [hmax] at hi
            exact List.mem_range.mp hi))
          (fun i hi attr ha => hlookup i hi attr ha)
      · rw [List.append_nil]
        exact applyImages_filter b.images imgs 0 imgCalls himg
    · intro pipB imgsB bB c2 calls2 i aA aB vA vB h2 hi hiA hvA hiB hvB hne
      rcases himg2 : applyImages bB.images imgsB 0 with _ | imgCalls2
      · simp [Context.apply_bindings, himg2] at h2
      · simp only [Context.apply_bindings, himg2] at h2
        have hb1 := bind_buffer_element c1 bB.index_buffer.gl_buf
        have hslot2 : (c1.bind_buffer GL_ELEMENT_ARRAY_BUFFER
            bB.index_buffer.gl_buf).1.attributes.getD i none =
            some { attr := aA, gl_vbuf := vA.gl_buf } := by
          rw [hb1.2.1, hc1slot i hi]
          simp [expectedSlot, hiA, hvA]
        exact attrLoop_rebind_mem bB pipB
          (List.range MAX_VERTEX_ATTRIBUTES) _ _ (c2, calls2) i
          { attr := aA, gl_vbuf := vA.gl_buf } aB vB h2
          (List.mem_range.mpr (by rw [hmax]; exact hi)) hslot2 hiB hvB
          (by
            simp only [needsRebind, decide_eq_true_eq]
            rcases hne with h | h
            · exact Or.inl (Ne.symm h)
            · exact Or.inr h)

/-- C4 witness: one attribute at slot 0 bound against vertex buffer 1 and
index buffer 2. Re-applying the same pipeline and bindings issues no
buffer/attribute call; re-applying with the vertex buffer swapped to
handle 3 issues a rebind (enable) for slot 0. -/
theorem apply_bindings_cache_witness :
    (∃ calls2,
      Context.apply_bindings
        ⟨0, 0, 2, 1, none, none,
          (List.replicate 16 (none : Option CachedAttribute)).set 0
            (some ⟨⟨0, 2, GL_FLOAT, 0, 8, 0, 0⟩, 1⟩)⟩
        [⟨0, 2, GL_FLOAT, 0, 8, 0, 0⟩] []
        ⟨[⟨1, .VertexBuffer, 0⟩], ⟨2, .IndexBuffer, 0⟩, []⟩ =
        some (⟨0, 0, 2, 1, none, none,
          (List.replicate 16 (none : Option CachedAttribute)).set 0
            (some ⟨⟨0, 2, GL_FLOAT, 0, 8, 0, 0⟩, 1⟩)⟩, calls2) ∧
      calls2.filter isBufferOrAttrCall = []) ∧
    GLCall.glEnableVertexAttribArray 0 ∈
      [GLCall.glBindBuffer GL_ARRAY_BUFFER 3,
       GLCall.glVertexAttribPointer 0 2 GL_FLOAT 8 0,
       GLCall.glVertexAttribDivisor 0 0,
       GLCall.glEnableVertexAttribArray 0] :=
  ⟨(apply_bindings_cache_correct
      ⟨0, 0, 0, 0, none, none, List.replicate 16 none⟩
      [⟨0, 2, GL_FLOAT, 0, 8, 0, 0⟩] []
      ⟨[⟨1, .VertexBuffer, 0⟩], ⟨2, .IndexBuffer, 0⟩, []⟩ _ _ rfl rfl).1,
   (apply_bindings_cache_correct
      ⟨0, 0, 0, 0, none, none, List.replicate 16 none⟩
      [⟨0, 2, GL_FLOAT, 0, 8, 0, 0⟩] []
      ⟨[⟨1, .VertexBuffer, 0⟩], ⟨2, .IndexBuffer, 0⟩, []⟩ _ _ rfl rfl).2
     [⟨0, 2, GL_FLOAT, 0, 8, 0, 0⟩] []
     ⟨[⟨3, .VertexBuffer, 0⟩], ⟨2, .IndexBuffer, 0⟩, []⟩ _ _ 0
     ⟨0, 2, GL_FLOAT, 0, 8, 0, 0⟩ ⟨0, 2, GL_FLOAT, 0, 8, 0, 0⟩
     ⟨1, .VertexBuffer, 0⟩ ⟨3, .VertexBuffer, 0⟩
     rfl (by decide) rfl rfl rfl rfl (Or.inr (by decide))⟩

end Miniquad
